import Mathlib

/-!
# servicelogger: the `send` command (cmd/send.go)

A shallow embedding of `sendServiceLogCmd.Run` and `sendServiceLog`.

* The sequential part of `Run` (lines 34-53 and 88-90) is the function `runPrologue`.
* The concurrent part (lines 54-87: the dispatch loop, one goroutine per target, the
  spinner goroutine, the wait group, the cancel and the `done` channel) is a step
  function `step` over an explicit `State`; a run is a list of scheduling choices.
* `sendServiceLog` (lines 105-116) is the function `sendServiceLog`; inside a
  goroutine it is executed one statement at a time by `sendStep`.

Everything the code obtains from outside the file (the viper settings store, standard
input, the JSON decoder, the markdown renderer, the confirmation form, the OCM
connection and client, `checkRequiredArgsExist`) is a field of `Env`.

What the model takes from the libraries the code calls:

* `PostServiceLog` and `Close` return or panic, as the environment says (on the nil
  connection that a failed `NewConnectionWithTemporaryToken` hands back they panic); every
  other call into a library returns; no call blocks for ever;
* a panic is recovered nowhere in the code: it runs the deferred calls of its goroutine
  (the `Close` of lines 110-112, then the `Done` of line 59), after which the runtime
  ends the process with status 2. Until the runtime has ended the process the other
  goroutines go on running: the deferred `Done` and the end of the process are two steps
  of the model, and `Run` can come past its wait between them. Once the process has
  ended no goroutine moves;
* `viper.Set` makes a key set and read back as the value given;
* `cobra.CheckErr` of a non-nil error writes `Error: <error>` to standard error and
  ends the process with `os.Exit(1)`;
* one `fmt.Println` is one write: lines of different goroutines do not mix;
* `Run` of the spinner returns when its context is cancelled; the model also lets it
  return earlier, and no proof that a run can be completed relies on that. What the
  spinner draws on the terminal while it runs is not modelled: the properties about
  standard output speak of the writes of the prologue and of the delivery goroutines.

A step of a goroutine is one statement; a run is an interleaving of such steps. The trace
of a state lists the effects so far in the order in which they happened, each with the
goroutine that caused it.
-/

namespace Servicelogger

/-! # Definitions -/

/-- A Go `error` value, identified with the text its `Error()` method returns;
`Option GoError` is a possibly-nil error. -/
abbrev GoError := String

/-- The value of a `*sdk.Connection` (a handle; what a failed
`NewConnectionWithTemporaryToken` hands back is whatever the environment says; in the
concrete environments below `0` stands for the nil connection). -/
abbrev Connection := Nat

/-- How a call that may panic ends. -/
inductive Outcome (α : Type) where
  /-- The call returned `a`. -/
  | returned (a : α)
  /-- The call panicked. -/
  | panicked
deriving DecidableEq, Repr

/-- Modelled from the spec: the type `templates.Template` (package `pkg/templates` is not
among the sources): "an opaque, already-validated payload ... to be delivered verbatim to
each target; immutable once read from input". -/
structure Template where
  payload : String
deriving DecidableEq, Repr

/-- The part of the process-wide viper settings store that `Run` reads and writes. -/
structure Viper where
  /-- The answer of `viper.IsSet("cluster_ids")`. -/
  clusterIdsIsSet : Bool
  /-- The answer of `viper.GetStringSlice("cluster_ids")`. -/
  clusterIds : List String
  /-- The answer of `viper.GetString("cluster_id")`. -/
  clusterId : String
  /-- The answer of `viper.GetString("ocm_url")`. -/
  ocmUrl : String
  /-- The answer of `viper.GetString("ocm_token")`. -/
  ocmToken : String
deriving DecidableEq, Repr

/-- The effect of `viper.Set("cluster_ids", ids)`: the key is set and reads back as `ids`. -/
def Viper.setClusterIds (v : Viper) (ids : List String) : Viper :=
  { v with clusterIdsIsSet := true, clusterIds := ids }

/-- Observable effects of the command. -/
inductive Event where
  /-- One write to `os.Stdout`. -/
  | stdout (s : String)
  /-- One write to `os.Stderr`. -/
  | stderr (s : String)
  /-- The huh confirmation form was run with this title. -/
  | confirmForm (title : String)
  /-- The process ended with this status: through `os.Exit`, or with status 2 after the Go
  runtime has reported a panic that nothing recovered. -/
  | exit (code : Nat)
  /-- A call of `ocm.NewConnectionWithTemporaryToken(url, token)`. -/
  | newConnection (url token : String)
  /-- A call of `client.PostServiceLog(clusterId, t)` on a client made from `conn`. -/
  | postServiceLog (conn : Connection) (clusterId : String) (t : Template)
  /-- A call of `conn.Close()`. -/
  | closeConnection (conn : Connection)
  /-- The spinner was started with this title (what it draws is not modelled). -/
  | spinnerRun (title : String)
  /-- The call `cancel()` of the spinner context. -/
  | cancel
  /-- The spinner goroutine delivered `done <- true` and main received it. -/
  | done
deriving DecidableEq, Repr

/-- Everything `Run` and `sendServiceLog` obtain from outside cmd/send.go. The answers of
the OCM calls carry the index of the goroutine that asks, so that two deliveries with the
same arguments may be answered differently. -/
structure Env where
  /-- The settings store when `Run` starts. -/
  viper : Viper
  /-- The helper `checkRequiredArgsExist` of package cmd (not among the sources): its answer
  for the settings store it finds and the keys it is given. -/
  checkRequiredArgsExist : Viper → List String → Option GoError
  /-- The result of `io.ReadAll(os.Stdin)`. -/
  readAllStdin : Except GoError String
  /-- The result of `json.Unmarshal(input, &template)`. -/
  unmarshal : String → Except GoError Template
  /-- The text `teaspoon.RenderMarkdown(template.String())`. -/
  renderMarkdown : Template → String
  /-- The confirmation form: the error of `Run()` and the value left in `confirmation`. -/
  runForm : String → Option GoError × Bool
  /-- The answer of `ocm.NewConnectionWithTemporaryToken(url, token)` in delivery `call`. -/
  newConnectionWithTemporaryToken : Nat → String → String → Connection × Option GoError
  /-- How `ocm.NewClient(conn).PostServiceLog(clusterId, t)` ends in delivery `call`: with
  the error it returns, or in a panic. -/
  postServiceLog : Nat → Connection → String → Template → Outcome (Option GoError)
  /-- How `conn.Close()` ends in delivery `call`: with the error it returns (which the code
  drops), or in a panic. -/
  closeConnection : Nat → Connection → Outcome (Option GoError)
  /-- The text `fmt` produces for an error under the verb `%q`. -/
  fmtQ : GoError → String

/-- The write of `fmt.Println(s)`. -/
def Println (s : String) : Event := Event.stdout (s ++ "\n")

/-- The effects of `cobra.CheckErr(err)` for a non-nil `err`: `Error: <err>` on standard
error, then `os.Exit(1)`. -/
def checkErr (e : GoError) : List Event :=
  [Event.stderr ("Error: " ++ e ++ "\n"), Event.exit 1]

/-! ## sendServiceLog (lines 105-116) -/

/-- Lines 107-109: the report on standard error when the connection could not be made. -/
def connReport (env : Env) : Option GoError → List Event
  | some e => [Event.stderr ("error creating ocm connection: " ++ env.fmtQ e)]
  | none => []

/-- How `sendServiceLog` ends, given how its post and its deferred close end: it returns
the error of the post when both return, and it panics when either of them panics. -/
def sendResult : Outcome (Option GoError) → Outcome (Option GoError) → Outcome (Option GoError)
  | .returned err, .returned _ => .returned err
  | _, _ => .panicked

/-- The function `sendServiceLog(url, token, clusterId, t)` of lines 105-116, as delivery
number `call`: how it ends (the error it returns, or a panic) and the effects it has, in
order. -/
def sendServiceLog (env : Env) (call : Nat) (url token clusterId : String) (t : Template) :
    Outcome (Option GoError) × List Event :=
  -- conn, err := ocm.NewConnectionWithTemporaryToken(url, token)
  let r := env.newConnectionWithTemporaryToken call url token
  let conn := r.1
  -- if err != nil { Fprintf(os.Stderr, ...) }   (no return)
  let report := connReport env r.2
  -- defer conn.Close(); client := ocm.NewClient(conn)
  -- err = client.PostServiceLog(clusterId, t)
  let posted := env.postServiceLog call conn clusterId t
  -- return err; the deferred conn.Close() runs on the return and on a panic of the post
  let closed := env.closeConnection call conn
  (sendResult posted closed, [Event.newConnection url token] ++ report ++
        [Event.postServiceLog conn clusterId t, Event.closeConnection conn])

/-- Where a goroutine stands inside `sendServiceLog`. -/
inductive SendPc where
  /-- Before line 106. -/
  | entry
  /-- After line 106, holding `conn` and `err`. -/
  | connected (conn : Connection) (err : Option GoError)
  /-- After lines 107-113: the close is deferred, the client is made. -/
  | ready (conn : Connection)
  /-- After line 114, holding how `PostServiceLog` ended; the close is still due. -/
  | posted (conn : Connection) (post : Outcome (Option GoError))
  /-- The deferred close has run: the function has returned an error, or it is panicking. -/
  | ended (result : Outcome (Option GoError))
deriving DecidableEq, Repr

/-- One statement of `sendServiceLog`: the next position and the effects of the statement. -/
def sendStep (env : Env) (call : Nat) (url token clusterId : String) (t : Template) :
    SendPc → SendPc × List Event
  | .entry =>
      let r := env.newConnectionWithTemporaryToken call url token
      (.connected r.1 r.2, [Event.newConnection url token])
  | .connected conn err => (.ready conn, connReport env err)
  | .ready conn =>
      (.posted conn (env.postServiceLog call conn clusterId t),
        [Event.postServiceLog conn clusterId t])
  | .posted conn post =>
      (.ended (sendResult post (env.closeConnection call conn)), [Event.closeConnection conn])
  | .ended result => (.ended result, [])

/-! ## The result line (lines 68-75) -/

/-- Lines 68-73: the value of `result`. -/
def resultLine (cId : String) (errSendSL : Option GoError) : String :=
  let result := cId ++ "\t"
  match errSendSL with
  | none => result ++ "success"
  | some e => result ++ ("failure\t" ++ e)

/-! ## The sequential part of Run (lines 34-53, 88-90) -/

/-- How the sequential part of `Run` ends. -/
inductive Stage where
  /-- The process ended through `cobra.CheckErr`. -/
  | exited (code : Nat)
  /-- `Run` returned without dispatching (lines 50 and 89). -/
  | returned
  /-- Line 53 with `confirmation` true: the dispatch of lines 54-87 follows. -/
  | dispatch (template : Template) (clusterIds : List String)
deriving DecidableEq, Repr

/-- The sequential part of `Run`: the settings store it leaves, its effects in order, and how
it ends. -/
structure Prologue where
  viper : Viper
  events : List Event
  stage : Stage
deriving DecidableEq, Repr

/-- Lines 34-36. -/
def resolveClusterIds (v : Viper) : Viper :=
  if !v.clusterIdsIsSet then v.setClusterIds [v.clusterId] else v

/-- The title of the confirmation (line 48). -/
def confirmTitle (clusterIds : List String) : String :=
  "Send this service log to " ++ toString clusterIds.length ++ " cluster(s)?"

/-- Lines 37-53 and 88-90, from the settings store `v` that lines 34-36 leave. -/
def runFrom (env : Env) (v : Viper) : Prologue :=
  match env.checkRequiredArgsExist v ["ocm_url", "ocm_token", "cluster_ids"] with
  | some e => ⟨v, checkErr e, .exited 1⟩
  | none =>
    match env.readAllStdin with
    | .error e => ⟨v, checkErr e, .exited 1⟩
    | .ok input =>
      match env.unmarshal input with
      | .error e => ⟨v, checkErr e, .exited 1⟩
      | .ok template =>
        let shown := Println (env.renderMarkdown template)
        let clusterIds := v.clusterIds
        let title := confirmTitle clusterIds
        match env.runForm title with
        | (some _, _) => ⟨v, [shown, Event.confirmForm title], .returned⟩
        | (none, true) => ⟨v, [shown, Event.confirmForm title], .dispatch template clusterIds⟩
        | (none, false) =>
            ⟨v, [shown, Event.confirmForm title, Event.stderr "Service log canceled"], .returned⟩

/-- Lines 34-53 and 88-90 of `Run`. -/
def runPrologue (env : Env) : Prologue :=
  runFrom env (resolveClusterIds env.viper)

/-! ## The concurrent part of Run (lines 54-87) -/

/-- Who takes the next step. -/
inductive Actor where
  /-- The goroutine running `Run`. -/
  | main
  /-- The goroutine launched for list position `i` (lines 58-76). -/
  | task (i : Nat)
  /-- The goroutine of lines 80-83. -/
  | spinner
deriving DecidableEq, Repr

/-- Where `Run` stands in lines 54-87. -/
inductive MainPc where
  /-- In the loop of line 56, `k` goroutines launched. -/
  | loop (k : Nat)
  /-- At lines 79-83. -/
  | spawnSpinner
  /-- At `serviceLogWaitGroup.Wait()` (line 85). -/
  | wait
  /-- At `cancel()` (line 86). -/
  | cancel
  /-- At `<-done` (line 87). -/
  | recvDone
  /-- `Run` has returned. -/
  | returned
deriving DecidableEq, Repr

/-- Where a delivery goroutine stands in lines 58-76. -/
inductive TaskPc where
  /-- Inside the call of `sendServiceLog` (line 61). -/
  | send (p : SendPc)
  /-- After `fmt.Println(result)` (line 75); the deferred `Done` is still due. -/
  | printed
  /-- The goroutine has returned: the deferred `Done` has run. -/
  | finished
  /-- The goroutine is panicking and its deferred calls have run (the `Done` of line 59
  was the last); the runtime has yet to end the process. -/
  | unwound
  /-- The runtime has ended the process on the panic of this goroutine. -/
  | dead
deriving DecidableEq, Repr

/-- A delivery goroutine: its argument `cId` and its position. -/
structure Task where
  cId : String
  pc : TaskPc
deriving DecidableEq, Repr

/-- Where the spinner goroutine stands in lines 80-83. -/
inductive SpinnerPc where
  /-- Not launched yet. -/
  | notStarted
  /-- Inside `spinner.New()...Run()`. -/
  | running
  /-- At `done <- true`, waiting for the receiver. -/
  | sending
  /-- The goroutine has ended. -/
  | exited
deriving DecidableEq, Repr

/-- The state of the concurrent part of `Run`. -/
structure State where
  /-- The settings store (read by the goroutines at lines 62-63). -/
  viper : Viper
  /-- The variable `template`. -/
  template : Template
  /-- The variable `clusterIds`. -/
  clusterIds : List String
  main : MainPc
  /-- The delivery goroutines in launch order: entry `i` serves list position `i`. -/
  tasks : List Task
  /-- The counter of `serviceLogWaitGroup`. -/
  serviceLogWaitGroup : Nat
  /-- Whether `ctx` has been cancelled. -/
  cancelled : Bool
  /-- Whether a panic has ended the process. -/
  crashed : Bool
  spinner : SpinnerPc
  /-- The effects so far, each with the goroutine that caused it. -/
  trace : List (Actor × Event)
deriving DecidableEq, Repr

/-- The state at line 54, after a prologue that ended in `Stage.dispatch`. -/
def dispatchInit (v : Viper) (events : List Event) (template : Template)
    (clusterIds : List String) : State :=
  { viper := v, template := template, clusterIds := clusterIds, main := .loop 0, tasks := [],
    serviceLogWaitGroup := 0, cancelled := false, crashed := false, spinner := .notStarted,
    trace := events.map (fun e => (Actor.main, e)) }

/-- A step of `Run` itself; `none` when it is blocked or has returned. -/
def stepMain (s : State) : Option State :=
  match s.main with
  | .loop k =>
      match s.clusterIds[k]? with
      | some clusterId =>
          -- serviceLogWaitGroup.Add(1); go func(cId string) {...}(clusterId)
          some { s with main := .loop (k + 1), serviceLogWaitGroup := s.serviceLogWaitGroup + 1,
                        tasks := s.tasks ++ [⟨clusterId, .send .entry⟩] }
      | none => some { s with main := .spawnSpinner }
  | .spawnSpinner =>
      -- done := make(chan bool); go func() {...}()
      some { s with main := .wait, spinner := .running,
                    trace := s.trace ++ [(Actor.spinner, Event.spinnerRun "Sending service log")] }
  | .wait =>
      -- serviceLogWaitGroup.Wait() returns once the counter is zero
      if s.serviceLogWaitGroup = 0 then some { s with main := .cancel } else none
  | .cancel =>
      some { s with main := .recvDone, cancelled := true,
                    trace := s.trace ++ [(Actor.main, Event.cancel)] }
  | .recvDone =>
      -- <-done meets done <- true (the channel is unbuffered)
      if s.spinner = .sending then
        some { s with main := .returned, spinner := .exited,
                      trace := s.trace ++ [(Actor.spinner, Event.done)] }
      else none
  | .returned => none

/-- A step of the goroutine of list position `i`; `none` when it is not launched or has
ended. -/
def stepTask (env : Env) (s : State) (i : Nat) : Option State :=
  match s.tasks[i]? with
  | none => none
  | some tk =>
    match tk.pc with
    | .send (.ended (.returned errSendSL)) =>
        -- lines 68-75
        some { s with tasks := s.tasks.set i { tk with pc := .printed },
                      trace := s.trace ++ [(Actor.task i, Println (resultLine tk.cId errSendSL))] }
    | .send (.ended .panicked) =>
        -- the panic leaves sendServiceLog and the goroutine: the deferred Done of line 59 runs
        some { s with tasks := s.tasks.set i { tk with pc := .unwound },
                      serviceLogWaitGroup := s.serviceLogWaitGroup - 1 }
    | .send p =>
        -- line 61, one statement of sendServiceLog
        let r := sendStep env i s.viper.ocmUrl s.viper.ocmToken tk.cId s.template p
        some { s with tasks := s.tasks.set i { tk with pc := .send r.1 },
                      trace := s.trace ++ r.2.map (fun e => (Actor.task i, e)) }
    | .printed =>
        -- the deferred serviceLogWaitGroup.Done()
        some { s with tasks := s.tasks.set i { tk with pc := .finished },
                      serviceLogWaitGroup := s.serviceLogWaitGroup - 1 }
    | .unwound =>
        -- no deferred call is left and nothing has recovered: the runtime ends the process
        some { s with tasks := s.tasks.set i { tk with pc := .dead }, crashed := true,
                      trace := s.trace ++ [(Actor.task i, Event.exit 2)] }
    | .finished => none
    | .dead => none

/-- A step of the spinner goroutine: its `Run()` returns (the library decides when: on the
cancellation of the context, or earlier on an error of its own). -/
def stepSpinner (s : State) : Option State :=
  match s.spinner with
  | .running => some { s with spinner := .sending }
  | _ => none

/-- One step of the actor `a`, when it can take one; nobody moves once the process has
ended in a panic. -/
def step (env : Env) (s : State) (a : Actor) : Option State :=
  if s.crashed then none
  else
    match a with
    | .main => stepMain s
    | .task i => stepTask env s i
    | .spinner => stepSpinner s

/-- The run that follows the schedule `sched` from `s`; `none` when the schedule picks an
actor that cannot move. -/
def exec (env : Env) : State → List Actor → Option State
  | s, [] => some s
  | s, a :: rest =>
      match step env s a with
      | some s' => exec env s' rest
      | none => none

/-- The effects of actor `a` in a trace, in order. -/
def eventsOf (a : Actor) (tr : List (Actor × Event)) : List Event :=
  (tr.filter (fun p => p.1 = a)).map (fun p => p.2)

/-- The text of a write to standard output. -/
def Event.stdoutText : Event → Option String
  | .stdout s => some s
  | _ => none

/-- Whether the actor is a delivery goroutine. -/
def Actor.isTask : Actor → Bool
  | .task _ => true
  | _ => false

/-- The result lines of a trace: what the delivery goroutines wrote to standard output, in
the order of the writes. -/
def resultLines (tr : List (Actor × Event)) : List String :=
  tr.filterMap (fun p => if p.1.isTask then p.2.stdoutText else none)

/-- The line that list position `i` with target `cId` is to print, terminated; there is
none when the delivery of that position panics. -/
def expectedLine (env : Env) (v : Viper) (t : Template) (i : Nat) (cId : String) :
    Option String :=
  match (sendServiceLog env i v.ocmUrl v.ocmToken cId t).1 with
  | .returned err => some (resultLine cId err ++ "\n")
  | .panicked => none

/-- The lines of the targets `ids`, which stand at list positions `i, i+1, ...`. -/
def expectedFrom (env : Env) (v : Viper) (t : Template) : Nat → List String → List String
  | _, [] => []
  | i, cId :: rest => (expectedLine env v t i cId).toList ++ expectedFrom env v t (i + 1) rest

/-- Every delivery of the target list returns: none panics. -/
def AllReturn (env : Env) (v : Viper) (t : Template) (ids : List String) : Prop :=
  ∀ i cId, ids[i]? = some cId →
    ∃ err, (sendServiceLog env i v.ocmUrl v.ocmToken cId t).1 = .returned err

/-- The per-target lines of a whole target list. -/
def expectedLines (env : Env) (v : Viper) (t : Template) (ids : List String) : List String :=
  expectedFrom env v t 0 ids

/-! ## The step relation -/

/-- The steps of `step`, one constructor per statement. -/
inductive Step (env : Env) (s : State) : Actor → State → Prop where
  | launch {k : Nat} {clusterId : String} (hl : s.crashed = false) (hm : s.main = .loop k)
      (hk : s.clusterIds[k]? = some clusterId) :
      Step env s .main
        { s with main := .loop (k + 1), serviceLogWaitGroup := s.serviceLogWaitGroup + 1,
                 tasks := s.tasks ++ [⟨clusterId, .send .entry⟩] }
  | loopEnd {k : Nat} (hl : s.crashed = false) (hm : s.main = .loop k)
      (hk : s.clusterIds[k]? = none) :
      Step env s .main { s with main := .spawnSpinner }
  | spawn (hl : s.crashed = false) (hm : s.main = .spawnSpinner) :
      Step env s .main
        { s with main := .wait, spinner := .running,
                 trace := s.trace ++ [(Actor.spinner, Event.spinnerRun "Sending service log")] }
  | waited (hl : s.crashed = false) (hm : s.main = .wait) (hw : s.serviceLogWaitGroup = 0) :
      Step env s .main { s with main := .cancel }
  | cancel (hl : s.crashed = false) (hm : s.main = .cancel) :
      Step env s .main
        { s with main := .recvDone, cancelled := true,
                 trace := s.trace ++ [(Actor.main, Event.cancel)] }
  | recv (hl : s.crashed = false) (hm : s.main = .recvDone) (hsp : s.spinner = .sending) :
      Step env s .main
        { s with main := .returned, spinner := .exited,
                 trace := s.trace ++ [(Actor.spinner, Event.done)] }
  | send {i : Nat} {tk : Task} {p : SendPc} (hl : s.crashed = false)
      (ht : s.tasks[i]? = some tk) (hp : tk.pc = .send p) (hnr : ∀ r, p ≠ .ended r) :
      Step env s (.task i)
        { s with
          tasks := s.tasks.set i
            { tk with pc := (TaskPc.send
                (sendStep env i s.viper.ocmUrl s.viper.ocmToken tk.cId s.template p).1) },
          trace := s.trace ++
            (sendStep env i s.viper.ocmUrl s.viper.ocmToken tk.cId s.template p).2.map
              (fun e => (Actor.task i, e)) }
  | print {i : Nat} {tk : Task} {err : Option GoError} (hl : s.crashed = false)
      (ht : s.tasks[i]? = some tk) (hp : tk.pc = .send (.ended (.returned err))) :
      Step env s (.task i)
        { s with tasks := s.tasks.set i { tk with pc := .printed },
                 trace := s.trace ++ [(Actor.task i, Println (resultLine tk.cId err))] }
  | unwind {i : Nat} {tk : Task} (hl : s.crashed = false)
      (ht : s.tasks[i]? = some tk) (hp : tk.pc = .send (.ended .panicked)) :
      Step env s (.task i)
        { s with tasks := s.tasks.set i { tk with pc := .unwound },
                 serviceLogWaitGroup := s.serviceLogWaitGroup - 1 }
  | crash {i : Nat} {tk : Task} (hl : s.crashed = false)
      (ht : s.tasks[i]? = some tk) (hp : tk.pc = .unwound) :
      Step env s (.task i)
        { s with tasks := s.tasks.set i { tk with pc := .dead }, crashed := true,
                 trace := s.trace ++ [(Actor.task i, Event.exit 2)] }
  | finish {i : Nat} {tk : Task} (hl : s.crashed = false)
      (ht : s.tasks[i]? = some tk) (hp : tk.pc = .printed) :
      Step env s (.task i)
        { s with tasks := s.tasks.set i { tk with pc := .finished },
                 serviceLogWaitGroup := s.serviceLogWaitGroup - 1 }
  | spin (hl : s.crashed = false) (hsp : s.spinner = .running) :
      Step env s .spinner { s with spinner := .sending }

/-! ## The control invariant: loop, wait group, barrier, cancel, spinner -/

/-- What a goroutine still owes the wait group. -/
def TaskPc.pending : TaskPc → Nat
  | .finished => 0
  | .unwound => 0
  | .dead => 0
  | _ => 1

/-- The number of launched goroutines that have not called `Done`. -/
def outstanding : List Task → Nat
  | [] => 0
  | tk :: rest => tk.pc.pending + outstanding rest

/-- The number of goroutines launched when `Run` stands at a position, of `n` targets. -/
def MainPc.launched (n : Nat) : MainPc → Nat
  | .loop k => k
  | _ => n

/-- The positions of the spinner goroutine that go with a position of `Run`. -/
def spinnerAt : MainPc → SpinnerPc → Prop
  | .loop _, sp => sp = .notStarted
  | .spawnSpinner, sp => sp = .notStarted
  | .wait, sp => sp = .running ∨ sp = .sending
  | .cancel, sp => sp = .running ∨ sp = .sending
  | .recvDone, sp => sp = .running ∨ sp = .sending
  | .returned, sp => sp = .exited

/-- The control invariant of the concurrent part. -/
structure Control (s : State) : Prop where
  bound : s.main.launched s.clusterIds.length ≤ s.clusterIds.length
  ids : s.tasks.map (fun t => t.cId) = s.clusterIds.take (s.main.launched s.clusterIds.length)
  serviceLogWaitGroup : s.serviceLogWaitGroup = outstanding s.tasks
  barrier : (s.main = .cancel ∨ s.main = .recvDone ∨ s.main = .returned) →
    ∀ tk ∈ s.tasks, tk.pc.pending = 0
  cancelled : s.cancelled = true ↔ (s.main = .recvDone ∨ s.main = .returned)
  spinner : spinnerAt s.main s.spinner
  alive : s.crashed = false → ∀ tk ∈ s.tasks, tk.pc ≠ .dead
  dead : s.crashed = true → ∃ tk ∈ s.tasks, tk.pc = .dead

/-! ## What each goroutine has done so far -/

/-- A position inside `sendServiceLog` holds the values the environment gave delivery `call`. -/
def SendPc.Agrees (env : Env) (call : Nat) (url token clusterId : String) (t : Template) :
    SendPc → Prop
  | .entry => True
  | .connected conn err => (conn, err) = env.newConnectionWithTemporaryToken call url token
  | .ready conn => conn = (env.newConnectionWithTemporaryToken call url token).1
  | .posted conn post =>
      conn = (env.newConnectionWithTemporaryToken call url token).1 ∧
      post = env.postServiceLog call conn clusterId t
  | .ended result => result = (sendServiceLog env call url token clusterId t).1

/-- The effects `sendServiceLog` has had when it stands at a position. -/
def sendLog (env : Env) (call : Nat) (url token clusterId : String) (t : Template) :
    SendPc → List Event
  | .entry => []
  | .connected _ _ => [Event.newConnection url token]
  | .ready _ =>
      [Event.newConnection url token] ++
        connReport env (env.newConnectionWithTemporaryToken call url token).2
  | .posted conn _ =>
      [Event.newConnection url token] ++
        connReport env (env.newConnectionWithTemporaryToken call url token).2 ++
        [Event.postServiceLog conn clusterId t]
  | .ended _ => (sendServiceLog env call url token clusterId t).2

/-- The write of lines 68-75 by the goroutine of list position `i`: none when its
delivery panics. -/
def lineEvents (env : Env) (v : Viper) (t : Template) (i : Nat) (cId : String) :
    List Event :=
  match (sendServiceLog env i v.ocmUrl v.ocmToken cId t).1 with
  | .returned err => [Println (resultLine cId err)]
  | .panicked => []

/-- The effects the goroutine of list position `i` has had when it stands at `tk.pc`. -/
def taskLog (env : Env) (v : Viper) (t : Template) (i : Nat) (tk : Task) : List Event :=
  match tk.pc with
  | .send p => sendLog env i v.ocmUrl v.ocmToken tk.cId t p
  | .dead => (sendServiceLog env i v.ocmUrl v.ocmToken tk.cId t).2 ++ [Event.exit 2]
  | _ => (sendServiceLog env i v.ocmUrl v.ocmToken tk.cId t).2 ++ lineEvents env v t i tk.cId

/-- The goroutine of list position `i` holds the values the environment gave it: past
line 61 its delivery has returned, and it has died only of a delivery that panicked. -/
def TaskPc.Agrees (env : Env) (v : Viper) (t : Template) (i : Nat) (cId : String) :
    TaskPc → Prop
  | .send p => p.Agrees env i v.ocmUrl v.ocmToken cId t
  | .unwound => (sendServiceLog env i v.ocmUrl v.ocmToken cId t).1 = .panicked
  | .dead => (sendServiceLog env i v.ocmUrl v.ocmToken cId t).1 = .panicked
  | _ => ∃ err, (sendServiceLog env i v.ocmUrl v.ocmToken cId t).1 = .returned err

/-- Each launched goroutine holds the values of the environment and has had exactly the effects
of its position; a goroutine not yet launched has had none. -/
structure Logs (env : Env) (s : State) : Prop where
  launched : ∀ i tk, s.tasks[i]? = some tk →
    tk.pc.Agrees env s.viper s.template i tk.cId ∧
    eventsOf (.task i) s.trace = taskLog env s.viper s.template i tk
  unlaunched : ∀ i, s.tasks.length ≤ i → eventsOf (.task i) s.trace = []

/-! ## The result lines printed so far -/

/-- Whether a goroutine has passed line 75. -/
def TaskPc.hasPrinted : TaskPc → Bool
  | .printed => true
  | .finished => true
  | _ => false

/-- The lines of the goroutines that have passed line 75, in list order; the goroutines
stand at list positions `i, i+1, ...`. -/
def printedFrom (env : Env) (v : Viper) (t : Template) : Nat → List Task → List String
  | _, [] => []
  | i, tk :: rest =>
      (if tk.pc.hasPrinted then (expectedLine env v t i tk.cId).toList else []) ++
        printedFrom env v t (i + 1) rest

/-- The result lines written so far are, up to order, the lines of the goroutines that
have passed line 75. -/
def Printed (env : Env) (s : State) : Prop :=
  List.Perm (resultLines s.trace) (printedFrom env s.viper s.template 0 s.tasks)

/-! ## The stop signal in the trace -/

/-- Wherever the stop signal stands in the trace, the part of the trace before it holds the
line of every target whose delivery returns and all the effects of every delivery
goroutine; the signal is in the trace exactly when the context is cancelled. -/
structure Barrier (env : Env) (s : State) : Prop where
  lines : ∀ k, s.trace[k]? = some (Actor.main, Event.cancel) →
    List.Perm (resultLines (s.trace.take k))
      (expectedLines env s.viper s.template s.clusterIds)
  logs : ∀ k, s.trace[k]? = some (Actor.main, Event.cancel) →
    ∀ i cId, s.clusterIds[i]? = some cId →
      eventsOf (.task i) (s.trace.take k) =
        taskLog env s.viper s.template i ⟨cId, .finished⟩
  sent : (Actor.main, Event.cancel) ∈ s.trace ↔ s.cancelled = true

/-! ## The invariants together, along a run -/

/-- All invariants of the concurrent part. -/
structure Inv (env : Env) (s : State) : Prop where
  control : Control s
  logs : Logs env s
  printed : Printed env s
  barrier : Barrier env s

/-! ## Every run comes to an end -/

/-- The statements `sendServiceLog` still has to execute. -/
def SendPc.stepsLeft : SendPc → Nat
  | .entry => 4
  | .connected _ _ => 3
  | .ready _ => 2
  | .posted _ _ => 1
  | .ended _ => 0

/-- The steps a delivery goroutine still has to take. -/
def TaskPc.stepsLeft : TaskPc → Nat
  | .send p => p.stepsLeft + 2
  | .printed => 1
  | .unwound => 1
  | .finished => 0
  | .dead => 0

/-- The steps the launched delivery goroutines still have to take. -/
def tasksStepsLeft : List Task → Nat
  | [] => 0
  | tk :: rest => tk.pc.stepsLeft + tasksStepsLeft rest

/-- The steps `Run` still has to take, with those of the goroutines it has yet to launch. -/
def MainPc.stepsLeft (n : Nat) : MainPc → Nat
  | .loop k => 7 * (n - k) + 6
  | .spawnSpinner => 5
  | .wait => 3
  | .cancel => 2
  | .recvDone => 1
  | .returned => 0

/-- The steps the spinner goroutine still has to take on its own. -/
def SpinnerPc.stepsLeft : SpinnerPc → Nat
  | .running => 1
  | _ => 0

/-- A bound on the number of steps until `Run` has returned or the process has ended. -/
def State.stepsLeft (s : State) : Nat :=
  s.main.stepsLeft s.clusterIds.length + tasksStepsLeft s.tasks + s.spinner.stepsLeft

/-! ## Whole runs -/

/-- A confirmed run of the command under the schedule `sched`: the sequential part ends at
line 53 with `confirmation` true, then the concurrent part follows the schedule. `none` when
the run is not confirmed, or when the schedule picks an actor that cannot move. -/
def confirmedRun (env : Env) (sched : List Actor) : Option State :=
  match (runPrologue env).stage with
  | .dispatch template clusterIds =>
      exec env
        (dispatchInit (runPrologue env).viper (runPrologue env).events template clusterIds) sched
  | _ => none

/-- Whether an effect is a call to OCM. -/
def Event.isOcmCall : Event → Bool
  | .newConnection _ _ => true
  | .postServiceLog _ _ _ => true
  | .closeConnection _ => true
  | _ => false

/-- The keys line 37 asks `checkRequiredArgsExist` about. -/
def requiredKeys : List String := ["ocm_url", "ocm_token", "cluster_ids"]

/-! ## Concrete environments -/

/-- An environment with targets `c1`, `c2` in which the delivery to `c2` fails with
`timeout`, and the operator confirms. -/
def envTwo : Env :=
  { viper := ⟨true, ["c1", "c2"], "", "https://api.openshift.com", "tok"⟩
    checkRequiredArgsExist := fun _ _ => none
    readAllStdin := .ok "\x7b\x7d"
    unmarshal := fun s => .ok ⟨s⟩
    renderMarkdown := fun t => t.payload
    runForm := fun _ => (none, true)
    newConnectionWithTemporaryToken := fun i _ _ => (i + 1, none)
    postServiceLog := fun i _ _ _ => if i = 1 then .returned (some "timeout") else .returned none
    closeConnection := fun _ _ => .returned none
    fmtQ := fun e => "\"" ++ e ++ "\"" }

/-- A schedule of `envTwo`: the two goroutines run interleaved, the second prints first;
the spinner returns on the cancellation. -/
def schedTwo : List Actor :=
  [.main, .main, .task 1, .task 0, .main, .task 1, .task 1, .task 0, .task 1, .task 0,
   .task 1, .main, .task 0, .task 0, .task 1, .task 0, .main, .main, .spinner, .main]

/-- The environment of `envTwo` with the single target `c1` and an operator who declines. -/
def envDeclined : Env :=
  { envTwo with
    viper := ⟨true, ["c1"], "", "https://api.openshift.com", "tok"⟩
    runForm := fun _ => (none, false) }

/-- An environment with the single target `c1` in which no connection can be made, while
the post and the close over what `NewConnectionWithTemporaryToken` handed back return and
report no error (a client that can be used all the same). -/
def envNoConnection : Env :=
  { envTwo with
    viper := ⟨true, ["c1"], "", "https://api.openshift.com", "tok"⟩
    newConnectionWithTemporaryToken := fun _ _ _ => (0, some "connection refused")
    postServiceLog := fun _ _ _ _ => .returned none }

/-- The environment of `envTwo` in which no connection can be made for `c1`: the call hands
back the nil connection with an error, and a post or a close over the nil connection
panics. The delivery to `c2` is answered as in `envTwo`. -/
def envNilConnection : Env :=
  { envTwo with
    newConnectionWithTemporaryToken := fun i url token =>
      if i = 0 then (0, some "connection refused")
      else envTwo.newConnectionWithTemporaryToken i url token
    postServiceLog := fun i conn clusterId t =>
      if conn = 0 then .panicked else envTwo.postServiceLog i conn clusterId t
    closeConnection := fun i conn =>
      if conn = 0 then .panicked else envTwo.closeConnection i conn }

/-- A schedule of `envNilConnection`: both goroutines are launched, the one of `c1` runs
until its panic has ended the process; the one of `c2` has not moved. -/
def schedPanicFirst : List Actor :=
  [.main, .main, .task 0, .task 0, .task 0, .task 0, .task 0, .task 0]

/-- A schedule of `envNilConnection`: both goroutines are launched, the one of `c2` runs to
its end, then the one of `c1` runs until its panic has ended the process. -/
def schedPanicLast : List Actor :=
  [.main, .main, .task 1, .task 1, .task 1, .task 1, .task 1, .task 1,
   .task 0, .task 0, .task 0, .task 0, .task 0, .task 0]

/-- A schedule of `envNilConnection`: the goroutine of `c2` runs to its end, the one of `c1`
runs until its panic has run the deferred `Done`; before the runtime has ended the
process, `Run` comes past its wait, sends the stop signal, receives `done` and returns. -/
def schedPanicReturn : List Actor :=
  [.main, .main, .main, .main, .task 1, .task 1, .task 1, .task 1, .task 1, .task 1,
   .task 0, .task 0, .task 0, .task 0, .task 0, .main, .main, .spinner, .main]

/-- A schedule for a single target; the spinner returns on the cancellation. -/
def schedOne : List Actor :=
  [.main, .main, .main, .task 0, .task 0, .task 0, .task 0, .task 0, .task 0,
   .main, .main, .spinner, .main]

/-- The environment of `envTwo` with a configuration check that fails. -/
def envMissingToken : Env :=
  { envTwo with checkRequiredArgsExist := fun _ _ => some "required argument missing" }

/-- The environment of `envTwo` with a standard input that cannot be read. -/
def envNoInput : Env :=
  { envTwo with readAllStdin := .error "read /dev/stdin: input/output error" }

/-- The environment of `envTwo` with an input that is not JSON. -/
def envBadJson : Env :=
  { envTwo with
    readAllStdin := .ok "not json"
    unmarshal := fun _ => .error "invalid character" }

/-- The environment of `envTwo` with neither `cluster_ids` nor `cluster_id` set. -/
def envNoTarget : Env :=
  { envTwo with viper := ⟨false, [], "", "https://api.openshift.com", "tok"⟩ }

/-! ## Definitions the properties are stated with -/

/-- The first `n` statements of `sendServiceLog` from a position: the position reached
and the effects, in order. -/
def sendSteps (env : Env) (call : Nat) (url token clusterId : String) (t : Template) :
    Nat → SendPc → SendPc × List Event
  | 0, p => (p, [])
  | n + 1, p =>
      let r := sendStep env call url token clusterId t p
      let r' := sendSteps env call url token clusterId t n r.1
      (r'.1, r.2 ++ r'.2)

/-- The contract of one `sendServiceLog` invocation as the specification states it: the
invocation establishes a connection by its one connection call, its calls to OCM are that
call, one `PostServiceLog(clusterId, t)` over that connection and one `Close` of it, in
this order, and it returns the error that `PostServiceLog` returned. -/
def claimedSendContract (env : Env) (call : Nat) (url token clusterId : String)
    (t : Template) : Prop :=
  (env.newConnectionWithTemporaryToken call url token).2 = none ∧
  (sendServiceLog env call url token clusterId t).2.filter Event.isOcmCall =
    [Event.newConnection url token,
     Event.postServiceLog (env.newConnectionWithTemporaryToken call url token).1 clusterId t,
     Event.closeConnection (env.newConnectionWithTemporaryToken call url token).1] ∧
  ∃ err,
    env.postServiceLog call (env.newConnectionWithTemporaryToken call url token).1
      clusterId t = .returned err ∧
    (sendServiceLog env call url token clusterId t).1 = .returned err

/-- The target list as the specification states it: the value of `cluster_ids` when that
key is set, else the one-element list holding the value of `cluster_id`. -/
def claimedTargetList (v : Viper) : List String :=
  if v.clusterIdsIsSet then v.clusterIds else [v.clusterId]

/-! # Theorems -/

/-! ## The step relation: proofs -/

theorem Step.of_step {env : Env} {s s' : State} {a : Actor} (h : step env s a = some s') :
    Step env s a s' := by
  unfold step at h
  split at h
  · cases h
  · rename_i hcr
    have hl : s.crashed = false := by simpa using hcr
    cases a with
    | main =>
      simp only [stepMain] at h
      split at h
      · split at h
        · cases h; exact Step.launch hl (by assumption) (by assumption)
        · cases h; exact Step.loopEnd hl (by assumption) (by assumption)
      · cases h; exact Step.spawn hl (by assumption)
      · split at h
        · cases h; exact Step.waited hl (by assumption) (by assumption)
        · cases h
      · cases h; exact Step.cancel hl (by assumption)
      · split at h
        · cases h; exact Step.recv hl (by assumption) (by assumption)
        · cases h
      · cases h
    | task i =>
      simp only [stepTask] at h
      split at h
      · cases h
      · split at h
        · cases h; exact Step.print hl (by assumption) (by assumption)
        · cases h; exact Step.unwind hl (by assumption) (by assumption)
        · cases h
          rename_i p hne1 hne2 hpc
          refine Step.send hl (by assumption) hpc ?_
          intro r hr
          cases r with
          | returned e => exact hne1 e hr
          | panicked => exact hne2 hr
        · cases h; exact Step.finish hl (by assumption) (by assumption)
        · cases h; exact Step.crash hl (by assumption) (by assumption)
        · cases h
        · cases h
    | spinner =>
      simp only [stepSpinner] at h
      split at h
      · cases h; exact Step.spin hl (by assumption)
      · cases h

theorem Step.to_step {env : Env} {s s' : State} {a : Actor} (h : Step env s a s') :
    step env s a = some s' := by
  cases h with
  | launch hl hm hk => simp [step, stepMain, hl, hm, hk]
  | loopEnd hl hm hk => simp [step, stepMain, hl, hm, hk]
  | spawn hl hm => simp [step, stepMain, hl, hm]
  | waited hl hm hw => simp [step, stepMain, hl, hm, hw]
  | cancel hl hm => simp [step, stepMain, hl, hm]
  | recv hl hm hsp => simp [step, stepMain, hl, hm, hsp]
  | send hl ht hp hnr =>
    rename_i i tk p
    cases p with
    | ended r => exact absurd rfl (hnr r)
    | _ => simp [step, stepTask, hl, ht, hp]
  | print hl ht hp => simp [step, stepTask, hl, ht, hp]
  | unwind hl ht hp => simp [step, stepTask, hl, ht, hp]
  | crash hl ht hp => simp [step, stepTask, hl, ht, hp]
  | finish hl ht hp => simp [step, stepTask, hl, ht, hp]
  | spin hl hsp => simp [step, stepSpinner, hl, hsp]

/-- A step is taken only while the process is alive. -/
theorem Step.alive {env : Env} {s s' : State} {a : Actor} (h : Step env s a s') :
    s.crashed = false := by
  cases h <;> assumption

/-! ## Parts of the state no step changes: proofs -/

theorem Step.viper_eq {env : Env} {s s' : State} {a : Actor} (h : Step env s a s') :
    s'.viper = s.viper := by
  cases h <;> rfl

theorem Step.template_eq {env : Env} {s s' : State} {a : Actor} (h : Step env s a s') :
    s'.template = s.template := by
  cases h <;> rfl

theorem Step.clusterIds_eq {env : Env} {s s' : State} {a : Actor} (h : Step env s a s') :
    s'.clusterIds = s.clusterIds := by
  cases h <;> rfl

/-! ## The control invariant: loop, wait group, barrier, cancel, spinner: proofs -/

theorem outstanding_append (a b : List Task) :
    outstanding (a ++ b) = outstanding a + outstanding b := by
  induction a with
  | nil => simp [outstanding]
  | cons x xs ih => simp [outstanding, ih, Nat.add_assoc]

theorem outstanding_set {tasks : List Task} {i : Nat} {tk : Task} (h : tasks[i]? = some tk)
    (tk' : Task) :
    outstanding (tasks.set i tk') + tk.pc.pending = outstanding tasks + tk'.pc.pending := by
  induction tasks generalizing i with
  | nil => simp at h
  | cons x xs ih =>
    cases i with
    | zero =>
      simp at h
      subst h
      simp [outstanding]
      omega
    | succ j =>
      simp at h
      have := ih h
      simp [outstanding]
      omega

theorem outstanding_eq_zero {tasks : List Task} (h : outstanding tasks = 0) :
    ∀ tk ∈ tasks, tk.pc.pending = 0 := by
  induction tasks with
  | nil => simp
  | cons x xs ih =>
    simp only [outstanding] at h
    intro tk htk
    rcases List.mem_cons.1 htk with rfl | hmem
    · omega
    · exact ih (by omega) tk hmem

/-- A goroutine owes the wait group nothing once it has ended: by its return, or in a
panic. -/
theorem pending_eq_zero {pc : TaskPc} (h : pc.pending = 0) :
    pc = .finished ∨ pc = .unwound ∨ pc = .dead := by
  cases pc <;> simp [TaskPc.pending] at h ⊢

theorem map_cId_set {tasks : List Task} {i : Nat} {tk : Task} (h : tasks[i]? = some tk)
    (pc : TaskPc) :
    (tasks.set i { tk with pc := pc }).map (fun t => t.cId) = tasks.map (fun t => t.cId) := by
  induction tasks generalizing i with
  | nil => simp
  | cons x xs ih =>
    cases i with
    | zero =>
      simp at h
      subst h
      simp
    | succ j =>
      simp at h
      simp [ih h]

theorem mem_of_getElem? {α : Type} {tasks : List α} {i : Nat} {tk : α}
    (h : tasks[i]? = some tk) : tk ∈ tasks := by
  rcases List.getElem?_eq_some_iff.1 h with ⟨hlt, rfl⟩
  exact List.getElem_mem _

theorem mem_set_self {α : Type} {l : List α} {i : Nat} (h : i < l.length) (x : α) :
    x ∈ l.set i x :=
  mem_of_getElem? (List.getElem?_set_self h)

theorem control_init (v : Viper) (events : List Event) (t : Template) (ids : List String) :
    Control (dispatchInit v events t ids) := by
  constructor <;> simp [dispatchInit, MainPc.launched, outstanding, spinnerAt]

theorem control_step {env : Env} {s s' : State} {a : Actor} (c : Control s)
    (h : Step env s a s') : Control s' := by
  obtain ⟨hb, hi, hw, hbar, hc, hsp, ha, hd⟩ := c
  have hnd : ∀ tk ∈ s.tasks, tk.pc ≠ .dead := ha h.alive
  have hset : ∀ (i : Nat) (new : Task), new.pc ≠ .dead →
      ∀ tk ∈ s.tasks.set i new, tk.pc ≠ .dead := by
    intro i new hnew tk htk
    rcases List.mem_or_eq_of_mem_set htk with h1 | h1
    · exact hnd tk h1
    · rw [h1]; exact hnew
  cases h with
  | launch hl hm hk =>
    rename_i k clusterId
    have hlt : k < s.clusterIds.length := (List.getElem?_eq_some_iff.1 hk).1
    simp only [hm, MainPc.launched] at hi
    constructor
    · simp [MainPc.launched]; omega
    · simp [MainPc.launched, hi, List.take_succ, hk]
    · simp [outstanding_append, outstanding, TaskPc.pending, hw]
    · simp
    · simpa [hm] using hc
    · simpa [spinnerAt, hm] using hsp
    · intro _ tk htk
      rcases List.mem_append.1 htk with h1 | h1
      · exact hnd tk h1
      · simp at h1
        simp [h1]
    · intro hcr
      simp [hl] at hcr
  | loopEnd hl hm hk =>
    rename_i k
    have hge : s.clusterIds.length ≤ k := List.getElem?_eq_none_iff.1 hk
    simp only [hm, MainPc.launched] at hi hb
    have hk' : k = s.clusterIds.length := by omega
    constructor
    · simp [MainPc.launched]
    · simpa [MainPc.launched, hk'] using hi
    · exact hw
    · simp
    · simpa [hm] using hc
    · simpa [spinnerAt, hm] using hsp
    · exact fun _ => hnd
    · intro hcr
      simp [hl] at hcr
  | spawn hl hm =>
    constructor
    · simp [MainPc.launched]
    · simpa [MainPc.launched, hm] using hi
    · exact hw
    · simp
    · simpa [hm] using hc
    · simp [spinnerAt]
    · exact fun _ => hnd
    · intro hcr
      simp [hl] at hcr
  | waited hl hm hw0 =>
    constructor
    · simp [MainPc.launched]
    · simpa [MainPc.launched, hm] using hi
    · exact hw
    · intro _ tk htk
      exact outstanding_eq_zero (by rw [← hw]; exact hw0) tk htk
    · simpa [hm] using hc
    · simpa [spinnerAt, hm] using hsp
    · exact fun _ => hnd
    · intro hcr
      simp [hl] at hcr
  | cancel hl hm =>
    constructor
    · simp [MainPc.launched]
    · simpa [MainPc.launched, hm] using hi
    · exact hw
    · intro _
      exact hbar (Or.inl hm)
    · simp
    · simpa [spinnerAt, hm] using hsp
    · exact fun _ => hnd
    · intro hcr
      simp [hl] at hcr
  | recv hl hm hsp' =>
    constructor
    · simp [MainPc.launched]
    · simpa [MainPc.launched, hm] using hi
    · exact hw
    · intro _
      exact hbar (Or.inr (Or.inl hm))
    · simpa using hc.2 (Or.inl hm)
    · simp [spinnerAt]
    · exact fun _ => hnd
    · intro hcr
      simp [hl] at hcr
  | send hl ht hp hnr =>
    rename_i i tk p
    have hrun : ¬ (s.main = .cancel ∨ s.main = .recvDone ∨ s.main = .returned) := fun hm =>
      by have := hbar hm tk (mem_of_getElem? ht); simp [hp, TaskPc.pending] at this
    constructor
    · exact hb
    · simpa [map_cId_set ht] using hi
    · have := outstanding_set ht
        { tk with pc := (TaskPc.send
            (sendStep env i s.viper.ocmUrl s.viper.ocmToken tk.cId s.template p).1) }
      simp only [hp, TaskPc.pending] at this
      dsimp only
      omega
    · intro hm
      exact absurd hm hrun
    · exact hc
    · exact hsp
    · exact fun _ => hset i _ (by simp)
    · intro hcr
      simp [hl] at hcr
  | print hl ht hp =>
    rename_i i tk err
    have hrun : ¬ (s.main = .cancel ∨ s.main = .recvDone ∨ s.main = .returned) := fun hm =>
      by have := hbar hm tk (mem_of_getElem? ht); simp [hp, TaskPc.pending] at this
    constructor
    · exact hb
    · simpa [map_cId_set ht] using hi
    · have := outstanding_set ht { tk with pc := TaskPc.printed }
      simp only [hp, TaskPc.pending] at this
      dsimp only
      omega
    · intro hm
      exact absurd hm hrun
    · exact hc
    · exact hsp
    · exact fun _ => hset i _ (by simp)
    · intro hcr
      simp [hl] at hcr
  | unwind hl ht hp =>
    rename_i i tk
    have hrun : ¬ (s.main = .cancel ∨ s.main = .recvDone ∨ s.main = .returned) := fun hm =>
      by have := hbar hm tk (mem_of_getElem? ht); simp [hp, TaskPc.pending] at this
    constructor
    · exact hb
    · simpa [map_cId_set ht] using hi
    · have := outstanding_set ht { tk with pc := TaskPc.unwound }
      simp only [hp, TaskPc.pending] at this
      dsimp only
      omega
    · intro hm
      exact absurd hm hrun
    · exact hc
    · exact hsp
    · exact fun _ => hset i _ (by simp)
    · intro hcr
      simp [hl] at hcr
  | crash hl ht hp =>
    rename_i i tk
    have hlt : i < s.tasks.length := (List.getElem?_eq_some_iff.1 ht).1
    constructor
    · exact hb
    · simpa [map_cId_set ht] using hi
    · have := outstanding_set ht { tk with pc := TaskPc.dead }
      simp only [hp, TaskPc.pending] at this
      dsimp only
      omega
    · intro hm tk' htk'
      rcases List.mem_or_eq_of_mem_set htk' with h1 | h1
      · exact hbar hm tk' h1
      · rw [h1]; rfl
    · exact hc
    · exact hsp
    · intro hcr
      simp at hcr
    · intro _
      exact ⟨_, mem_set_self hlt _, rfl⟩
  | finish hl ht hp =>
    rename_i i tk
    have hrun : ¬ (s.main = .cancel ∨ s.main = .recvDone ∨ s.main = .returned) := fun hm =>
      by have := hbar hm tk (mem_of_getElem? ht); simp [hp, TaskPc.pending] at this
    constructor
    · exact hb
    · simpa [map_cId_set ht] using hi
    · have := outstanding_set ht { tk with pc := TaskPc.finished }
      simp only [hp, TaskPc.pending] at this
      dsimp only
      omega
    · intro hm
      exact absurd hm hrun
    · exact hc
    · exact hsp
    · exact fun _ => hset i _ (by simp)
    · intro hcr
      simp [hl] at hcr
  | spin hl hsp' =>
    constructor
    · exact hb
    · exact hi
    · exact hw
    · exact hbar
    · exact hc
    · cases hm : s.main <;> simp [spinnerAt, hm, hsp'] at hsp ⊢
    · exact fun _ => hnd
    · intro hcr
      simp [hl] at hcr

/-- The goroutine at list position `i` serves the target at list position `i`. -/
theorem Control.target {s : State} (c : Control s) {i : Nat} {tk : Task}
    (ht : s.tasks[i]? = some tk) : s.clusterIds[i]? = some tk.cId := by
  have h1 : (s.tasks.map (fun t => t.cId))[i]? = some tk.cId := by
    rw [List.getElem?_map, ht]
    rfl
  rw [c.ids, List.getElem?_take] at h1
  split at h1
  · exact h1
  · cases h1

/-! ## What each goroutine has done so far: proofs -/

theorem sendStep_agrees (env : Env) (call : Nat) (url token clusterId : String) (t : Template)
    {p : SendPc} (hp : p.Agrees env call url token clusterId t) (hnr : ∀ r, p ≠ .ended r) :
    (sendStep env call url token clusterId t p).1.Agrees env call url token clusterId t ∧
    sendLog env call url token clusterId t (sendStep env call url token clusterId t p).1 =
      sendLog env call url token clusterId t p ++ (sendStep env call url token clusterId t p).2 := by
  cases p with
  | entry => simp [sendStep, SendPc.Agrees, sendLog]
  | connected conn err =>
    simp only [SendPc.Agrees] at hp
    have h1 : conn = (env.newConnectionWithTemporaryToken call url token).1 := by rw [← hp]
    have h2 : err = (env.newConnectionWithTemporaryToken call url token).2 := by rw [← hp]
    simp [sendStep, SendPc.Agrees, sendLog, h1, h2]
  | ready conn =>
    simp only [SendPc.Agrees] at hp
    simp [sendStep, SendPc.Agrees, sendLog, hp]
  | posted conn post =>
    simp only [SendPc.Agrees] at hp
    obtain ⟨h1, h2⟩ := hp
    subst h2
    subst h1
    simp [sendStep, SendPc.Agrees, sendLog, sendServiceLog]
  | ended r => exact absurd rfl (hnr r)

theorem eventsOf_append (a : Actor) (tr tr' : List (Actor × Event)) :
    eventsOf a (tr ++ tr') = eventsOf a tr ++ eventsOf a tr' := by
  simp [eventsOf]

theorem eventsOf_tagged_self (a : Actor) (evs : List Event) :
    eventsOf a (evs.map (fun e => (a, e))) = evs := by
  induction evs with
  | nil => rfl
  | cons e es ih =>
    simp only [eventsOf, List.map_cons] at ih ⊢
    simp [List.filter_cons, ih]

theorem eventsOf_tagged_other {a b : Actor} (h : b ≠ a) (evs : List Event) :
    eventsOf a (evs.map (fun e => (b, e))) = [] := by
  induction evs with
  | nil => rfl
  | cons e es ih =>
    simp only [eventsOf, List.map_cons] at ih ⊢
    simp [List.filter_cons, h, ih]

theorem resultLines_append (tr tr' : List (Actor × Event)) :
    resultLines (tr ++ tr') = resultLines tr ++ resultLines tr' := by
  simp [resultLines]

theorem resultLines_tagged_main (evs : List Event) :
    resultLines (evs.map (fun e => (Actor.main, e))) = [] := by
  induction evs with
  | nil => rfl
  | cons e es ih =>
    simp only [resultLines, List.map_cons] at ih ⊢
    simp [List.filterMap_cons, Actor.isTask, ih]

theorem logs_init (env : Env) (v : Viper) (events : List Event) (t : Template)
    (ids : List String) : Logs env (dispatchInit v events t ids) := by
  constructor
  · intro i tk h
    simp [dispatchInit] at h
  · intro i _
    exact eventsOf_tagged_other (by simp) events

theorem logs_step {env : Env} {s s' : State} {a : Actor} (l : Logs env s)
    (h : Step env s a s') : Logs env s' := by
  obtain ⟨hla, hu⟩ := l
  cases h with
  | launch hl hm hk =>
    rename_i k clusterId
    constructor
    · intro i tk hi
      dsimp only at hi ⊢
      by_cases hlt : i < s.tasks.length
      · rw [List.getElem?_append_left hlt] at hi
        exact hla i tk hi
      · rw [List.getElem?_append_right (by omega)] at hi
        have hi0 : i - s.tasks.length = 0 := by
          by_contra hne
          obtain ⟨j, hj⟩ := Nat.exists_eq_succ_of_ne_zero hne
          rw [hj] at hi
          simp at hi
        rw [hi0] at hi
        simp at hi
        subst hi
        refine ⟨by simp [TaskPc.Agrees, SendPc.Agrees], ?_⟩
        rw [hu i (by omega)]
        simp [taskLog, sendLog]
    · intro i hi
      simp at hi
      exact hu i (by omega)
  | loopEnd hl hm hk => exact ⟨hla, hu⟩
  | spawn hl hm =>
    constructor
    · intro i tk hi
      dsimp only at hi ⊢
      rw [eventsOf_append]
      have : eventsOf (Actor.task i) [(Actor.spinner, Event.spinnerRun "Sending service log")]
          = [] := by simp [eventsOf]
      rw [this, List.append_nil]
      exact hla i tk hi
    · intro i hi
      dsimp only at hi ⊢
      rw [eventsOf_append, hu i hi]
      simp [eventsOf]
  | waited hl hm hw => exact ⟨hla, hu⟩
  | cancel hl hm =>
    constructor
    · intro i tk hi
      dsimp only at hi ⊢
      rw [eventsOf_append]
      have : eventsOf (Actor.task i) [(Actor.main, Event.cancel)] = [] := by simp [eventsOf]
      rw [this, List.append_nil]
      exact hla i tk hi
    · intro i hi
      dsimp only at hi ⊢
      rw [eventsOf_append, hu i hi]
      simp [eventsOf]
  | recv hl hm hsp =>
    constructor
    · intro i tk hi
      dsimp only at hi ⊢
      rw [eventsOf_append]
      have : eventsOf (Actor.task i) [(Actor.spinner, Event.done)] = [] := by simp [eventsOf]
      rw [this, List.append_nil]
      exact hla i tk hi
    · intro i hi
      dsimp only at hi ⊢
      rw [eventsOf_append, hu i hi]
      simp [eventsOf]
  | send hl ht hp hnr =>
    rename_i i tk p
    obtain ⟨hag, hev⟩ := hla i tk ht
    have hlt : i < s.tasks.length := (List.getElem?_eq_some_iff.1 ht).1
    simp only [hp, TaskPc.Agrees] at hag
    have hstep := sendStep_agrees env i s.viper.ocmUrl s.viper.ocmToken tk.cId s.template hag hnr
    constructor
    · intro j tj hj
      dsimp only at hj ⊢
      rw [eventsOf_append]
      by_cases hji : j = i
      · subst hji
        rw [List.getElem?_set_self hlt] at hj
        cases hj
        rw [eventsOf_tagged_self, hev]
        refine ⟨by simpa [TaskPc.Agrees] using hstep.1, ?_⟩
        simp only [taskLog, hp]
        exact hstep.2.symm
      · rw [List.getElem?_set_ne (fun h => hji h.symm)] at hj
        rw [eventsOf_tagged_other (by simpa using fun h => hji h.symm), List.append_nil]
        exact hla j tj hj
    · intro j hj
      dsimp only at hj ⊢
      simp at hj
      rw [eventsOf_append, hu j hj,
        eventsOf_tagged_other (by simp; omega), List.append_nil]
  | print hl ht hp =>
    rename_i i tk err
    obtain ⟨hag, hev⟩ := hla i tk ht
    have hlt : i < s.tasks.length := (List.getElem?_eq_some_iff.1 ht).1
    simp only [hp, TaskPc.Agrees, SendPc.Agrees] at hag
    constructor
    · intro j tj hj
      dsimp only at hj ⊢
      rw [eventsOf_append]
      by_cases hji : j = i
      · subst hji
        rw [List.getElem?_set_self hlt] at hj
        cases hj
        refine ⟨⟨err, hag.symm⟩, ?_⟩
        rw [hev]
        simp [taskLog, hp, sendLog, lineEvents, ← hag, eventsOf]
      · rw [List.getElem?_set_ne (fun h => hji h.symm)] at hj
        have : eventsOf (Actor.task j) [(Actor.task i, Println (resultLine tk.cId err))] = [] := by
          simp only [eventsOf, List.filter_cons, List.filter_nil]
          rw [if_neg (by simpa using fun h => hji h.symm)]
          rfl
        rw [this, List.append_nil]
        exact hla j tj hj
    · intro j hj
      dsimp only at hj ⊢
      simp at hj
      have : eventsOf (Actor.task j) [(Actor.task i, Println (resultLine tk.cId err))] = [] := by
        simp [eventsOf]; omega
      rw [eventsOf_append, hu j hj, this, List.append_nil]
  | unwind hl ht hp =>
    rename_i i tk
    obtain ⟨hag, hev⟩ := hla i tk ht
    have hlt : i < s.tasks.length := (List.getElem?_eq_some_iff.1 ht).1
    simp only [hp, TaskPc.Agrees, SendPc.Agrees] at hag
    constructor
    · intro j tj hj
      dsimp only at hj ⊢
      by_cases hji : j = i
      · subst hji
        rw [List.getElem?_set_self hlt] at hj
        cases hj
        refine ⟨hag.symm, ?_⟩
        rw [hev]
        simp [taskLog, hp, sendLog, lineEvents, ← hag]
      · rw [List.getElem?_set_ne (fun h => hji h.symm)] at hj
        exact hla j tj hj
    · intro j hj
      dsimp only at hj ⊢
      simp at hj
      exact hu j hj
  | crash hl ht hp =>
    rename_i i tk
    obtain ⟨hag, hev⟩ := hla i tk ht
    have hlt : i < s.tasks.length := (List.getElem?_eq_some_iff.1 ht).1
    simp only [hp, TaskPc.Agrees] at hag
    constructor
    · intro j tj hj
      dsimp only at hj ⊢
      rw [eventsOf_append]
      by_cases hji : j = i
      · subst hji
        rw [List.getElem?_set_self hlt] at hj
        cases hj
        refine ⟨hag, ?_⟩
        rw [hev]
        simp [taskLog, hp, lineEvents, hag, eventsOf]
      · rw [List.getElem?_set_ne (fun h => hji h.symm)] at hj
        have : eventsOf (Actor.task j) [(Actor.task i, Event.exit 2)] = [] := by
          simp only [eventsOf, List.filter_cons, List.filter_nil]
          rw [if_neg (by simpa using fun h => hji h.symm)]
          rfl
        rw [this, List.append_nil]
        exact hla j tj hj
    · intro j hj
      dsimp only at hj ⊢
      simp at hj
      have : eventsOf (Actor.task j) [(Actor.task i, Event.exit 2)] = [] := by
        simp [eventsOf]; omega
      rw [eventsOf_append, hu j hj, this, List.append_nil]
  | finish hl ht hp =>
    rename_i i tk
    obtain ⟨hag, hev⟩ := hla i tk ht
    have hlt : i < s.tasks.length := (List.getElem?_eq_some_iff.1 ht).1
    constructor
    · intro j tj hj
      dsimp only at hj ⊢
      by_cases hji : j = i
      · subst hji
        rw [List.getElem?_set_self hlt] at hj
        cases hj
        refine ⟨by simpa [TaskPc.Agrees, hp] using hag, ?_⟩
        rw [hev]
        simp [taskLog, hp]
      · rw [List.getElem?_set_ne (fun h => hji h.symm)] at hj
        exact hla j tj hj
    · intro j hj
      dsimp only at hj ⊢
      simp at hj
      exact hu j hj
  | spin hl hsp => exact ⟨hla, hu⟩

/-! ## The result lines printed so far: proofs -/

theorem printedFrom_append (env : Env) (v : Viper) (t : Template) (i : Nat)
    (a b : List Task) :
    printedFrom env v t i (a ++ b) =
      printedFrom env v t i a ++ printedFrom env v t (i + a.length) b := by
  induction a generalizing i with
  | nil => simp [printedFrom]
  | cons x xs ih =>
    have h := ih (i + 1)
    rw [show i + 1 + xs.length = i + (xs.length + 1) by omega] at h
    simp only [List.cons_append, printedFrom, List.length_cons, List.append_assoc]
    exact congrArg (fun l => _ ++ l) h

theorem printedFrom_set_same (env : Env) (v : Viper) (t : Template) {tasks : List Task}
    {j : Nat} {tk : Task} (h : tasks[j]? = some tk) (pc : TaskPc)
    (hpc : pc.hasPrinted = tk.pc.hasPrinted) (i : Nat) :
    printedFrom env v t i (tasks.set j { tk with pc := pc }) = printedFrom env v t i tasks := by
  induction tasks generalizing i j with
  | nil => simp
  | cons x xs ih =>
    cases j with
    | zero =>
      simp at h
      subst h
      simp [printedFrom, hpc]
    | succ j =>
      simp at h
      simp [printedFrom, ih h]

theorem printedFrom_set_print (env : Env) (v : Viper) (t : Template) {tasks : List Task}
    {j : Nat} {tk : Task} (h : tasks[j]? = some tk) (hp : tk.pc.hasPrinted = false)
    (pc : TaskPc) (hpc : pc.hasPrinted = true) (i : Nat) :
    List.Perm (printedFrom env v t i (tasks.set j { tk with pc := pc }))
      ((expectedLine env v t (i + j) tk.cId).toList ++ printedFrom env v t i tasks) := by
  induction tasks generalizing i j with
  | nil => simp at h
  | cons x xs ih =>
    cases j with
    | zero =>
      simp at h
      subst h
      simp [printedFrom, hpc, hp]
    | succ j =>
      simp at h
      have := ih h (i + 1)
      simp only [List.set_cons_succ, printedFrom]
      rw [show i + (j + 1) = i + 1 + j by omega]
      refine (List.Perm.append_left _ this).trans ?_
      rw [← List.append_assoc, ← List.append_assoc]
      exact List.Perm.append_right _ List.perm_append_comm

theorem printedFrom_ended (env : Env) (v : Viper) (t : Template) {tasks : List Task}
    (i : Nat)
    (h : ∀ j tk, tasks[j]? = some tk →
      tk.pc.hasPrinted = true ∨ expectedLine env v t (i + j) tk.cId = none) :
    printedFrom env v t i tasks = expectedFrom env v t i (tasks.map (fun tk => tk.cId)) := by
  induction tasks generalizing i with
  | nil => rfl
  | cons x xs ih =>
    have hrest := ih (i + 1) (fun j tk hj => by
      have := h (j + 1) tk (by simpa using hj)
      rw [show i + (j + 1) = i + 1 + j by omega] at this
      exact this)
    have hx := h 0 x (by simp)
    rw [Nat.add_zero] at hx
    simp only [printedFrom, List.map_cons, expectedFrom, hrest]
    rcases hx with hx | hx
    · simp [hx]
    · simp [hx]

/-- A goroutine that has ended has printed its line, unless its delivery panicked. -/
theorem ended_printed {env : Env} {v : Viper} {t : Template} {i : Nat} {tk : Task}
    (hag : tk.pc.Agrees env v t i tk.cId) (hp : tk.pc.pending = 0) :
    tk.pc.hasPrinted = true ∨ expectedLine env v t i tk.cId = none := by
  rcases pending_eq_zero hp with h | h | h
  · left; rw [h]; rfl
  · right
    rw [h] at hag
    simp only [TaskPc.Agrees] at hag
    simp [expectedLine, hag]
  · right
    rw [h] at hag
    simp only [TaskPc.Agrees] at hag
    simp [expectedLine, hag]

theorem expectedFrom_length (env : Env) (v : Viper) (t : Template) (i : Nat)
    (ids : List String)
    (h : ∀ j cId, ids[j]? = some cId →
      ∃ err, (sendServiceLog env (i + j) v.ocmUrl v.ocmToken cId t).1 = .returned err) :
    (expectedFrom env v t i ids).length = ids.length := by
  induction ids generalizing i with
  | nil => rfl
  | cons x xs ih =>
    obtain ⟨err, herr⟩ := h 0 x (by simp)
    have hrest := ih (i + 1) (fun j cId hj => by
      have := h (j + 1) cId (by simpa using hj)
      rw [show i + (j + 1) = i + 1 + j by omega] at this
      exact this)
    rw [Nat.add_zero] at herr
    simp [expectedFrom, expectedLine, herr, hrest]

theorem expectedLines_length {env : Env} {v : Viper} {t : Template} {ids : List String}
    (h : AllReturn env v t ids) : (expectedLines env v t ids).length = ids.length := by
  apply expectedFrom_length
  intro j cId hj
  rw [Nat.zero_add]
  exact h j cId hj

theorem resultLines_sendStep (env : Env) (i : Nat) (url token clusterId : String)
    (t : Template) (p : SendPc) :
    resultLines ((sendStep env i url token clusterId t p).2.map
      (fun e => (Actor.task i, e))) = [] := by
  cases p with
  | connected conn err => cases err <;> simp [sendStep, connReport, resultLines, Event.stdoutText]
  | _ => simp [sendStep, resultLines, Event.stdoutText]

theorem printed_init (env : Env) (v : Viper) (events : List Event) (t : Template)
    (ids : List String) : Printed env (dispatchInit v events t ids) := by
  simp [Printed, dispatchInit, resultLines_tagged_main, printedFrom]

theorem printed_step {env : Env} {s s' : State} {a : Actor} (l : Logs env s)
    (q : Printed env s) (h : Step env s a s') : Printed env s' := by
  unfold Printed at q ⊢
  cases h with
  | launch hl hm hk =>
    dsimp only
    rw [printedFrom_append]
    simpa [printedFrom, TaskPc.hasPrinted] using q
  | loopEnd hl hm hk => exact q
  | spawn hl hm =>
    dsimp only
    rw [resultLines_append]
    simpa [resultLines, Actor.isTask] using q
  | waited hl hm hw => exact q
  | cancel hl hm =>
    dsimp only
    rw [resultLines_append]
    simpa [resultLines, Actor.isTask] using q
  | recv hl hm hsp =>
    dsimp only
    rw [resultLines_append]
    simpa [resultLines, Actor.isTask] using q
  | send hl ht hp hnr =>
    rename_i i tk p
    dsimp only
    rw [resultLines_append, resultLines_sendStep, List.append_nil,
      printedFrom_set_same env s.viper s.template ht _ (by simp [hp, TaskPc.hasPrinted])]
    exact q
  | print hl ht hp =>
    rename_i i tk err
    obtain ⟨hag, _⟩ := l.launched i tk ht
    simp only [hp, TaskPc.Agrees, SendPc.Agrees] at hag
    dsimp only
    rw [resultLines_append]
    have hline : resultLines [(Actor.task i, Println (resultLine tk.cId err))] =
        (expectedLine env s.viper s.template i tk.cId).toList := by
      simp [resultLines, Actor.isTask, Println, Event.stdoutText, expectedLine, ← hag]
    rw [hline]
    have hperm := printedFrom_set_print env s.viper s.template ht
      (by simp [hp, TaskPc.hasPrinted]) TaskPc.printed (by simp [TaskPc.hasPrinted]) 0
    rw [Nat.zero_add] at hperm
    refine List.Perm.trans ?_ hperm.symm
    refine List.Perm.trans (List.perm_append_comm) ?_
    exact List.Perm.append_left _ q
  | unwind hl ht hp =>
    rename_i i tk
    dsimp only
    rw [printedFrom_set_same env s.viper s.template ht _ (by simp [hp, TaskPc.hasPrinted])]
    exact q
  | crash hl ht hp =>
    rename_i i tk
    dsimp only
    rw [resultLines_append,
      printedFrom_set_same env s.viper s.template ht _ (by simp [hp, TaskPc.hasPrinted])]
    simpa [resultLines, Actor.isTask, Event.stdoutText] using q
  | finish hl ht hp =>
    rename_i i tk
    dsimp only
    rw [printedFrom_set_same env s.viper s.template ht _ (by simp [hp, TaskPc.hasPrinted])]
    exact q
  | spin hl hsp => exact q

/-- Once `Run` is past the wait, every target whose delivery returns has its line in the
trace. -/
theorem printed_complete {env : Env} {s : State} (c : Control s) (l : Logs env s)
    (q : Printed env s)
    (hm : s.main = .cancel ∨ s.main = .recvDone ∨ s.main = .returned) :
    List.Perm (resultLines s.trace) (expectedLines env s.viper s.template s.clusterIds) := by
  have hfin := c.barrier hm
  have hids := c.ids
  have hl : s.main.launched s.clusterIds.length = s.clusterIds.length := by
    rcases hm with h | h | h <;> simp [h, MainPc.launched]
  rw [hl, List.take_length] at hids
  unfold Printed at q
  rw [printedFrom_ended env s.viper s.template 0 (fun j tk hj => by
    rw [Nat.zero_add]
    exact ended_printed (l.launched j tk hj).1 (hfin tk (mem_of_getElem? hj))), hids] at q
  exact q

/-- Once `Run` is past the wait, and while the process is alive, the goroutine of every
list position has had all its effects: those of its `sendServiceLog` call, then its line
when that call returned. -/
theorem logs_complete {env : Env} {s : State} (c : Control s) (l : Logs env s)
    (hm : s.main = .cancel ∨ s.main = .recvDone ∨ s.main = .returned)
    (hlive : s.crashed = false)
    (i : Nat) (cId : String) (hi : s.clusterIds[i]? = some cId) :
    eventsOf (.task i) s.trace =
      taskLog env s.viper s.template i ⟨cId, .finished⟩ := by
  have hfin := c.barrier hm
  have hids := c.ids
  have hl : s.main.launched s.clusterIds.length = s.clusterIds.length := by
    rcases hm with h | h | h <;> simp [h, MainPc.launched]
  rw [hl, List.take_length] at hids
  rw [← hids, List.getElem?_map] at hi
  cases htk : s.tasks[i]? with
  | none => simp [htk] at hi
  | some tk =>
    simp [htk] at hi
    have hpc := hfin tk (mem_of_getElem? htk)
    have hnd := c.alive hlive tk (mem_of_getElem? htk)
    have := (l.launched i tk htk).2
    rw [this]
    cases tk with
    | mk c0 pc0 =>
      simp at hi hpc hnd
      subst hi
      rcases pending_eq_zero hpc with h | h | h
      · subst h; rfl
      · subst h; rfl
      · exact absurd h hnd

theorem Step.trace_cases {env : Env} {s s' : State} {a : Actor} (h : Step env s a s') :
    ∃ evs, s'.trace = s.trace ++ evs ∧
      ((Actor.main, Event.cancel) ∈ evs →
        s.main = .cancel ∧ evs = [(Actor.main, Event.cancel)]) ∧
      (s'.cancelled = true ↔ (s.cancelled = true ∨ (Actor.main, Event.cancel) ∈ evs)) := by
  cases h with
  | launch hl hm hk => exact ⟨[], by simp⟩
  | loopEnd hl hm hk => exact ⟨[], by simp⟩
  | spawn hl hm => exact ⟨[(Actor.spinner, Event.spinnerRun "Sending service log")], by simp⟩
  | waited hl hm hw => exact ⟨[], by simp⟩
  | cancel hl hm => exact ⟨[(Actor.main, Event.cancel)], by simp [hm]⟩
  | recv hl hm hsp => exact ⟨[(Actor.spinner, Event.done)], by simp⟩
  | send hl ht hp hnr => exact ⟨_, rfl, by simp⟩
  | print hl ht hp => exact ⟨_, rfl, by simp⟩
  | unwind hl ht hp => exact ⟨[], by simp⟩
  | crash hl ht hp => exact ⟨_, rfl, by simp⟩
  | finish hl ht hp => exact ⟨[], by simp⟩
  | spin hl hsp => exact ⟨[], by simp⟩

theorem barrier_init (env : Env) (v : Viper) (events : List Event) (t : Template)
    (ids : List String) (hev : Event.cancel ∉ events) :
    Barrier env (dispatchInit v events t ids) := by
  have hno : (Actor.main, Event.cancel) ∉ (dispatchInit v events t ids).trace := by
    simpa [dispatchInit] using hev
  constructor
  · intro k hk
    exact absurd (mem_of_getElem? hk) hno
  · intro k hk
    exact absurd (mem_of_getElem? hk) hno
  · constructor
    · intro h
      exact absurd h hno
    · intro h
      simp [dispatchInit] at h

theorem getElem?_append_cases {α : Type} {tr evs : List α} {k : Nat} {x : α}
    (h : (tr ++ evs)[k]? = some x) :
    (k < tr.length ∧ tr[k]? = some x ∧ (tr ++ evs).take k = tr.take k) ∨
    (tr.length ≤ k ∧ evs[k - tr.length]? = some x) := by
  by_cases hlt : k < tr.length
  · left
    rw [List.getElem?_append_left hlt] at h
    exact ⟨hlt, h, List.take_append_of_le_length (Nat.le_of_lt hlt)⟩
  · right
    rw [List.getElem?_append_right (by omega)] at h
    exact ⟨by omega, h⟩

theorem barrier_step {env : Env} {s s' : State} {a : Actor} (c : Control s) (l : Logs env s)
    (q : Printed env s) (b : Barrier env s) (h : Step env s a s') : Barrier env s' := by
  obtain ⟨evs, htr, hcan, hflag⟩ := h.trace_cases
  have hv := h.viper_eq
  have ht := h.template_eq
  have hc := h.clusterIds_eq
  have key : ∀ k, s'.trace[k]? = some (Actor.main, Event.cancel) →
      (k < s.trace.length ∧ s.trace[k]? = some (Actor.main, Event.cancel) ∧
        s'.trace.take k = s.trace.take k) ∨
      (s.main = .cancel ∧ s'.trace.take k = s.trace) := by
    intro k hk
    rw [htr] at hk ⊢
    rcases getElem?_append_cases hk with h1 | ⟨hge, h2⟩
    · exact Or.inl h1
    · right
      obtain ⟨hm, hevs⟩ := hcan (mem_of_getElem? h2)
      refine ⟨hm, ?_⟩
      have hk0 : k - s.trace.length = 0 := by
        by_contra hne
        obtain ⟨j, hj⟩ := Nat.exists_eq_succ_of_ne_zero hne
        rw [hevs, hj] at h2
        simp at h2
      have hk' : k = s.trace.length := by omega
      rw [hk']
      simp
  constructor
  · intro k hk
    rw [hv, ht, hc]
    rcases key k hk with ⟨_, h1, h2⟩ | ⟨hm, h2⟩
    · rw [h2]
      exact b.lines k h1
    · rw [h2]
      exact printed_complete c l q (Or.inl hm)
  · intro k hk i cId hi
    rw [hv, ht]
    rw [hc] at hi
    rcases key k hk with ⟨_, h1, h2⟩ | ⟨hm, h2⟩
    · rw [h2]
      exact b.logs k h1 i cId hi
    · rw [h2]
      exact logs_complete c l (Or.inl hm) h.alive i cId hi
  · rw [htr, List.mem_append, hflag, b.sent]

/-! ## The invariants together, along a run: proofs -/

theorem inv_init (env : Env) (v : Viper) (events : List Event) (t : Template)
    (ids : List String) (hev : Event.cancel ∉ events) :
    Inv env (dispatchInit v events t ids) :=
  ⟨control_init v events t ids, logs_init env v events t ids, printed_init env v events t ids,
    barrier_init env v events t ids hev⟩

theorem inv_next {env : Env} {s s' : State} {a : Actor} (i : Inv env s)
    (h : Step env s a s') : Inv env s' :=
  ⟨control_step i.control h, logs_step i.logs h, printed_step i.logs i.printed h,
    barrier_step i.control i.logs i.printed i.barrier h⟩

theorem exec_nil (env : Env) (s : State) : exec env s [] = some s := rfl

theorem exec_cons (env : Env) (s : State) (a : Actor) (rest : List Actor) :
    exec env s (a :: rest) = (step env s a).bind (fun s' => exec env s' rest) := by
  cases h : step env s a <;> simp [exec, h]

theorem inv_run {env : Env} {sched : List Actor} {s s' : State} (i : Inv env s)
    (h : exec env s sched = some s') : Inv env s' := by
  induction sched generalizing s with
  | nil =>
    rw [exec_nil] at h
    cases h
    exact i
  | cons a rest ih =>
    rw [exec_cons] at h
    cases hs : step env s a with
    | none => simp [hs] at h
    | some s1 =>
      simp only [hs, Option.some_bind] at h
      exact ih (inv_next i (Step.of_step hs)) h

theorem exec_fixed {env : Env} {sched : List Actor} {s s' : State}
    (h : exec env s sched = some s') :
    s'.viper = s.viper ∧ s'.template = s.template ∧ s'.clusterIds = s.clusterIds := by
  induction sched generalizing s with
  | nil =>
    rw [exec_nil] at h
    cases h
    exact ⟨rfl, rfl, rfl⟩
  | cons a rest ih =>
    rw [exec_cons] at h
    cases hs : step env s a with
    | none => simp [hs] at h
    | some s1 =>
      simp only [hs, Option.some_bind] at h
      have hst := Step.of_step hs
      obtain ⟨h1, h2, h3⟩ := ih h
      exact ⟨h1.trans hst.viper_eq, h2.trans hst.template_eq, h3.trans hst.clusterIds_eq⟩

theorem exec_append (env : Env) (s : State) (a b : List Actor) :
    exec env s (a ++ b) = (exec env s a).bind (fun s' => exec env s' b) := by
  induction a generalizing s with
  | nil => simp [exec_nil]
  | cons x xs ih =>
    simp only [List.cons_append, exec_cons]
    cases step env s x with
    | none => simp
    | some s1 => simpa using ih s1

/-! ## Every run comes to an end: proofs -/

theorem tasksStepsLeft_append (a b : List Task) :
    tasksStepsLeft (a ++ b) = tasksStepsLeft a + tasksStepsLeft b := by
  induction a with
  | nil => simp [tasksStepsLeft]
  | cons x xs ih => simp [tasksStepsLeft, ih, Nat.add_assoc]

theorem tasksStepsLeft_set {tasks : List Task} {i : Nat} {tk : Task}
    (h : tasks[i]? = some tk) (tk' : Task) :
    tasksStepsLeft (tasks.set i tk') + tk.pc.stepsLeft =
      tasksStepsLeft tasks + tk'.pc.stepsLeft := by
  induction tasks generalizing i with
  | nil => simp at h
  | cons x xs ih =>
    cases i with
    | zero =>
      simp at h
      subst h
      simp [tasksStepsLeft]
      omega
    | succ j =>
      simp at h
      have := ih h
      simp [tasksStepsLeft]
      omega

theorem sendStep_stepsLeft (env : Env) (call : Nat) (url token clusterId : String)
    (t : Template) {p : SendPc} (hnr : ∀ r, p ≠ .ended r) :
    (sendStep env call url token clusterId t p).1.stepsLeft + 1 = p.stepsLeft := by
  cases p with
  | ended r => exact absurd rfl (hnr r)
  | _ => rfl

/-- Each step uses up at least one of the steps left. -/
theorem Step.stepsLeft {env : Env} {s s' : State} {a : Actor} (c : Control s)
    (h : Step env s a s') : s'.stepsLeft + 1 ≤ s.stepsLeft := by
  cases h with
  | launch hl hm hk =>
    rename_i k clusterId
    have hlt : k < s.clusterIds.length := (List.getElem?_eq_some_iff.1 hk).1
    simp only [State.stepsLeft, hm, MainPc.stepsLeft, tasksStepsLeft_append, tasksStepsLeft,
      TaskPc.stepsLeft, SendPc.stepsLeft]
    omega
  | loopEnd hl hm hk =>
    rename_i k
    have hge : s.clusterIds.length ≤ k := List.getElem?_eq_none_iff.1 hk
    simp only [State.stepsLeft, hm, MainPc.stepsLeft]
    omega
  | spawn hl hm =>
    have := c.spinner
    simp only [hm, spinnerAt] at this
    simp only [State.stepsLeft, hm, MainPc.stepsLeft, this, SpinnerPc.stepsLeft]
    omega
  | waited hl hm hw =>
    simp only [State.stepsLeft, hm, MainPc.stepsLeft]
    omega
  | cancel hl hm =>
    simp only [State.stepsLeft, hm, MainPc.stepsLeft]
    omega
  | recv hl hm hsp =>
    simp only [State.stepsLeft, hm, MainPc.stepsLeft, hsp, SpinnerPc.stepsLeft]
    omega
  | send hl ht hp hnr =>
    rename_i i tk p
    have h1 := tasksStepsLeft_set ht
      { tk with pc := (TaskPc.send
          (sendStep env i s.viper.ocmUrl s.viper.ocmToken tk.cId s.template p).1) }
    have h2 := sendStep_stepsLeft env i s.viper.ocmUrl s.viper.ocmToken tk.cId s.template hnr
    simp only [hp, TaskPc.stepsLeft] at h1
    simp only [State.stepsLeft]
    omega
  | print hl ht hp =>
    rename_i i tk err
    have h1 := tasksStepsLeft_set ht { tk with pc := TaskPc.printed }
    simp only [hp, TaskPc.stepsLeft, SendPc.stepsLeft] at h1
    simp only [State.stepsLeft]
    omega
  | unwind hl ht hp =>
    rename_i i tk
    have h1 := tasksStepsLeft_set ht { tk with pc := TaskPc.unwound }
    simp only [hp, TaskPc.stepsLeft, SendPc.stepsLeft] at h1
    simp only [State.stepsLeft]
    omega
  | crash hl ht hp =>
    rename_i i tk
    have h1 := tasksStepsLeft_set ht { tk with pc := TaskPc.dead }
    simp only [hp, TaskPc.stepsLeft, SendPc.stepsLeft] at h1
    simp only [State.stepsLeft]
    omega
  | finish hl ht hp =>
    rename_i i tk
    have h1 := tasksStepsLeft_set ht { tk with pc := TaskPc.finished }
    simp only [hp, TaskPc.stepsLeft] at h1
    simp only [State.stepsLeft]
    omega
  | spin hl hsp =>
    simp only [State.stepsLeft, hsp, SpinnerPc.stepsLeft]
    omega

theorem exists_pending {tasks : List Task} (h : outstanding tasks ≠ 0) :
    ∃ (i : Nat) (tk : Task), tasks[i]? = some tk ∧ tk.pc ≠ TaskPc.finished ∧
      tk.pc ≠ TaskPc.dead := by
  induction tasks with
  | nil => simp [outstanding] at h
  | cons x xs ih =>
    by_cases hx : x.pc.pending = 0
    · simp only [outstanding, hx, Nat.zero_add] at h
      obtain ⟨i, tk, hi, hp⟩ := ih h
      exact ⟨i + 1, tk, by rw [List.getElem?_cons_succ]; exact hi, hp⟩
    · refine ⟨0, x, List.getElem?_cons_zero, ?_, ?_⟩ <;>
        · intro hpc
          simp [hpc, TaskPc.pending] at hx

/-- While the process is alive, a launched goroutine that has not ended can take a step. -/
theorem task_can_step (env : Env) {s : State} {i : Nat} {tk : Task} (hl : s.crashed = false)
    (ht : s.tasks[i]? = some tk) (hp : tk.pc ≠ .finished) (hd : tk.pc ≠ .dead) :
    ∃ s', Step env s (.task i) s' := by
  cases hpc : tk.pc with
  | send p =>
    cases p with
    | ended r =>
      cases r with
      | returned e => exact ⟨_, Step.print hl ht hpc⟩
      | panicked => exact ⟨_, Step.unwind hl ht hpc⟩
    | entry => exact ⟨_, Step.send hl ht hpc (by simp)⟩
    | connected conn err => exact ⟨_, Step.send hl ht hpc (by simp)⟩
    | ready conn => exact ⟨_, Step.send hl ht hpc (by simp)⟩
    | posted conn post => exact ⟨_, Step.send hl ht hpc (by simp)⟩
  | printed => exact ⟨_, Step.finish hl ht hpc⟩
  | unwound => exact ⟨_, Step.crash hl ht hpc⟩
  | finished => exact absurd hpc hp
  | dead => exact absurd hpc hd

/-- No deadlock: while the process is alive and until `Run` has returned, some goroutine
can take a step. -/
theorem progress (env : Env) {s : State} (c : Control s) (hl : s.crashed = false)
    (hm : s.main ≠ .returned) : ∃ a s', Step env s a s' := by
  cases hmain : s.main with
  | loop k =>
    cases hk : s.clusterIds[k]? with
    | none => exact ⟨.main, _, Step.loopEnd hl hmain hk⟩
    | some clusterId => exact ⟨.main, _, Step.launch hl hmain hk⟩
  | spawnSpinner => exact ⟨.main, _, Step.spawn hl hmain⟩
  | wait =>
    by_cases hw : s.serviceLogWaitGroup = 0
    · exact ⟨.main, _, Step.waited hl hmain hw⟩
    · rw [c.serviceLogWaitGroup] at hw
      obtain ⟨i, tk, hi, hp, hd⟩ := exists_pending hw
      obtain ⟨s', hs'⟩ := task_can_step env hl hi hp hd
      exact ⟨.task i, s', hs'⟩
  | cancel => exact ⟨.main, _, Step.cancel hl hmain⟩
  | recvDone =>
    have := c.spinner
    simp only [hmain, spinnerAt] at this
    rcases this with h | h
    · exact ⟨.spinner, _, Step.spin hl h⟩
    · exact ⟨.main, _, Step.recv hl hmain h⟩
  | returned => exact absurd hmain hm

/-- When every delivery returns, no step ends the process. -/
theorem Step.stays_alive {env : Env} {s s' : State} {a : Actor} (c : Control s)
    (l : Logs env s) (hall : AllReturn env s.viper s.template s.clusterIds)
    (h : Step env s a s') : s'.crashed = false := by
  cases h with
  | crash hl ht hp =>
    rename_i i tk
    have hag := (l.launched i tk ht).1
    simp only [hp, TaskPc.Agrees] at hag
    obtain ⟨err, herr⟩ := hall i tk.cId (c.target ht)
    rw [herr] at hag
    cases hag
  | _ => assumption

/-- When every delivery returns, a run from a live state can be continued until `Run` has
returned. -/
theorem exists_completion (env : Env) {s : State} (c : Control s) (l : Logs env s)
    (hall : AllReturn env s.viper s.template s.clusterIds) (hl : s.crashed = false) :
    ∃ sched s', exec env s sched = some s' ∧ s'.main = .returned := by
  generalize hn : s.stepsLeft = n
  induction n using Nat.strong_induction_on generalizing s with
  | _ n ih =>
    by_cases hm : s.main = .returned
    · exact ⟨[], s, rfl, hm⟩
    · obtain ⟨a, s1, hs1⟩ := progress env c hl hm
      have hfuel := hs1.stepsLeft c
      have hall1 : AllReturn env s1.viper s1.template s1.clusterIds := by
        rw [hs1.viper_eq, hs1.template_eq, hs1.clusterIds_eq]
        exact hall
      obtain ⟨sched, s', hrun, hret⟩ := ih s1.stepsLeft (by omega) (control_step c hs1)
        (logs_step l hs1) hall1 (hs1.stays_alive c l hall) rfl
      refine ⟨a :: sched, s', ?_, hret⟩
      rw [exec_cons, hs1.to_step]
      exact hrun

/-- A run of `k` steps uses up at least `k` of the steps left: a run has at most
`stepsLeft` steps. -/
theorem exec_stepsLeft {env : Env} {sched : List Actor} {s s' : State} (c : Control s)
    (h : exec env s sched = some s') : s'.stepsLeft + sched.length ≤ s.stepsLeft := by
  induction sched generalizing s with
  | nil =>
    rw [exec_nil] at h
    cases h
    simp
  | cons a rest ih =>
    rw [exec_cons] at h
    cases hs : step env s a with
    | none => simp [hs] at h
    | some s1 =>
      simp only [hs, Option.some_bind] at h
      have hst := Step.of_step hs
      have h1 := hst.stepsLeft c
      have h2 := ih (control_step c hst) h
      simp only [List.length_cons]
      omega

/-- Once the process has ended in a panic, no schedule goes on. -/
theorem exec_crashed (env : Env) {s : State} (hcr : s.crashed = true) (a : Actor)
    (rest : List Actor) : exec env s (a :: rest) = none := by
  rw [exec_cons]
  simp [step, hcr]

/-- `Run` has returned only once the spinner goroutine has handed over `done`. -/
theorem Step.trace_done {env : Env} {s s' : State} {a : Actor} (h : Step env s a s') :
    ∃ evs, s'.trace = s.trace ++ evs ∧
      (s'.main = .returned → s.main = .returned ∨ (Actor.spinner, Event.done) ∈ evs) := by
  cases h with
  | launch hl hm hk => exact ⟨[], by simp⟩
  | loopEnd hl hm hk => exact ⟨[], by simp⟩
  | spawn hl hm => exact ⟨[(Actor.spinner, Event.spinnerRun "Sending service log")], by simp⟩
  | waited hl hm hw => exact ⟨[], by simp⟩
  | cancel hl hm => exact ⟨[(Actor.main, Event.cancel)], by simp⟩
  | recv hl hm hsp => exact ⟨[(Actor.spinner, Event.done)], by simp⟩
  | send hl ht hp hnr => exact ⟨_, rfl, fun h => Or.inl h⟩
  | print hl ht hp => exact ⟨_, rfl, fun h => Or.inl h⟩
  | unwind hl ht hp => exact ⟨[], by simp, fun h => Or.inl h⟩
  | crash hl ht hp => exact ⟨_, rfl, fun h => Or.inl h⟩
  | finish hl ht hp => exact ⟨[], by simp, fun h => Or.inl h⟩
  | spin hl hsp => exact ⟨[], by simp, fun h => Or.inl h⟩

theorem exec_trace {env : Env} {sched : List Actor} {s s' : State}
    (h : exec env s sched = some s') :
    ∃ evs, s'.trace = s.trace ++ evs ∧
      (s'.main = .returned → s.main = .returned ∨ (Actor.spinner, Event.done) ∈ evs) := by
  induction sched generalizing s with
  | nil =>
    rw [exec_nil] at h
    cases h
    exact ⟨[], by simp⟩
  | cons a rest ih =>
    rw [exec_cons] at h
    cases hs : step env s a with
    | none => simp [hs] at h
    | some s1 =>
      simp only [hs, Option.some_bind] at h
      obtain ⟨e1, h1, k1⟩ := (Step.of_step hs).trace_done
      obtain ⟨e2, h2, k2⟩ := ih h
      refine ⟨e1 ++ e2, by rw [h2, h1, List.append_assoc], ?_⟩
      intro hret
      rcases k2 hret with h3 | h3
      · rcases k1 h3 with h4 | h4
        · exact Or.inl h4
        · exact Or.inr (List.mem_append_left _ h4)
      · exact Or.inr (List.mem_append_right _ h3)

/-! ## The sequential part: proofs -/

theorem runFrom_no_cancel (env : Env) (v : Viper) : Event.cancel ∉ (runFrom env v).events := by
  unfold runFrom
  split
  · simp [checkErr]
  · split
    · simp [checkErr]
    · split
      · simp [checkErr]
      · dsimp only
        split <;> simp [Println]

/-- What a run that reaches the dispatch has gone through. -/
theorem runFrom_dispatch {env : Env} {v : Viper} {t : Template} {ids : List String}
    (h : (runFrom env v).stage = .dispatch t ids) :
    ids = v.clusterIds ∧
    env.checkRequiredArgsExist v requiredKeys = none ∧
    (∃ input, env.readAllStdin = .ok input ∧ env.unmarshal input = .ok t) ∧
    env.runForm (confirmTitle ids) = (none, true) ∧
    (runFrom env v).events =
      [Println (env.renderMarkdown t), Event.confirmForm (confirmTitle ids)] := by
  unfold runFrom at h ⊢
  split at h
  · simp at h
  · rename_i hcheck
    split at h
    · simp at h
    · rename_i input hin
      split at h
      · simp at h
      · rename_i template hjson
        dsimp only at h ⊢
        split at h
        · simp at h
        · rename_i hform
          simp only [Stage.dispatch.injEq] at h
          obtain ⟨h1, h2⟩ := h
          subst h1
          subst h2
          refine ⟨rfl, hcheck, ⟨input, hin, hjson⟩, hform, ?_⟩
          simp only [hcheck, hin, hjson, hform]
        · simp at h

/-- The facts about a confirmed run that the properties below start from. -/
theorem confirmedRun_spec {env : Env} {t : Template} {ids : List String}
    {sched : List Actor} {s : State}
    (hconf : (runPrologue env).stage = .dispatch t ids)
    (hrun : confirmedRun env sched = some s) :
    Inv env s ∧ s.viper = (runPrologue env).viper ∧ s.template = t ∧ s.clusterIds = ids ∧
    ∃ evs, s.trace = (runPrologue env).events.map (fun e => (Actor.main, e)) ++ evs ∧
      resultLines s.trace = resultLines evs ∧
      (s.main = .returned → (Actor.spinner, Event.done) ∈ evs) := by
  unfold confirmedRun at hrun
  rw [hconf] at hrun
  dsimp only at hrun
  have hinv := inv_run
    (inv_init env (runPrologue env).viper (runPrologue env).events t ids
      (runFrom_no_cancel env _)) hrun
  obtain ⟨h1, h2, h3⟩ := exec_fixed hrun
  obtain ⟨evs, h4, h6⟩ := exec_trace hrun
  refine ⟨hinv, h1, h2, h3, evs, h4, ?_, ?_⟩
  · rw [h4, resultLines_append]
    simp [dispatchInit, resultLines_tagged_main]
  · intro hret
    rcases h6 hret with h7 | h7
    · simp [dispatchInit] at h7
    · exact h7

/-- A confirmed run continued by a run of the concurrent part is a confirmed run. -/
theorem confirmedRun_append {env : Env} {sched rest : List Actor} {s final : State}
    (hrun : confirmedRun env sched = some s) (hrest : exec env s rest = some final) :
    confirmedRun env (sched ++ rest) = some final := by
  unfold confirmedRun at hrun ⊢
  split at hrun
  · rw [exec_append, hrun]
    exact hrest
  · cases hrun

/-- A confirmed run in which the process has ended in a panic cannot be continued. -/
theorem confirmedRun_crashed {env : Env} {sched : List Actor} {s : State}
    (hrun : confirmedRun env sched = some s) (hcr : s.crashed = true) (a : Actor)
    (rest : List Actor) : confirmedRun env (sched ++ a :: rest) = none := by
  unfold confirmedRun at hrun ⊢
  split at hrun
  · rw [exec_append, hrun]
    exact exec_crashed env hcr a rest
  · cases hrun

/-- When every delivery returns, every confirmed run can be continued until `Run` has
returned. -/
theorem confirmedRun_completion {env : Env} {t : Template} {ids : List String}
    {sched : List Actor} {s : State}
    (hconf : (runPrologue env).stage = .dispatch t ids)
    (hall : AllReturn env (runPrologue env).viper t ids)
    (hrun : confirmedRun env sched = some s) :
    ∃ rest final, confirmedRun env (sched ++ rest) = some final ∧ final.main = .returned := by
  obtain ⟨hinv, hv, ht, hids, _⟩ := confirmedRun_spec hconf hrun
  have hall' : AllReturn env s.viper s.template s.clusterIds := by
    rw [hv, ht, hids]
    exact hall
  have hl : s.crashed = false := by
    cases hcr : s.crashed with
    | false => rfl
    | true =>
      obtain ⟨tk, htk, hdead⟩ := hinv.control.dead hcr
      obtain ⟨i, hlt, hget⟩ := List.getElem_of_mem htk
      have hi : s.tasks[i]? = some tk := by
        rw [List.getElem?_eq_getElem hlt, hget]
      have hag := (hinv.logs.launched i tk hi).1
      rw [hdead] at hag
      obtain ⟨err, herr⟩ := hall' i tk.cId (hinv.control.target hi)
      simp only [TaskPc.Agrees] at hag
      rw [herr] at hag
      cases hag
  obtain ⟨rest, final, hfin, hret⟩ := exists_completion env hinv.control hinv.logs hall' hl
  exact ⟨rest, final, confirmedRun_append hrun hfin, hret⟩

theorem initial_stepsLeft (v : Viper) (events : List Event) (t : Template)
    (ids : List String) : (dispatchInit v events t ids).stepsLeft = 7 * ids.length + 6 := by
  simp [dispatchInit, State.stepsLeft, MainPc.stepsLeft, tasksStepsLeft, SpinnerPc.stepsLeft]

theorem printedFrom_length_le (env : Env) (v : Viper) (t : Template) (i : Nat)
    (tasks : List Task) :
    (printedFrom env v t i tasks).length ≤
      (expectedFrom env v t i (tasks.map (fun tk => tk.cId))).length := by
  induction tasks generalizing i with
  | nil => simp [printedFrom, expectedFrom]
  | cons x xs ih =>
    have := ih (i + 1)
    simp only [printedFrom, List.map_cons, expectedFrom, List.length_append]
    split <;> simp <;> omega

theorem expectedFrom_take_length_le (env : Env) (v : Viper) (t : Template) (i k : Nat)
    (ids : List String) :
    (expectedFrom env v t i (ids.take k)).length ≤ (expectedFrom env v t i ids).length := by
  induction ids generalizing i k with
  | nil => simp
  | cons x xs ih =>
    cases k with
    | zero => simp [expectedFrom]
    | succ k =>
      have := ih (i + 1) k
      simp only [List.take_succ_cons, expectedFrom, List.length_append]
      omega

/-- What holds of every confirmed run when every delivery returns: the run can be
continued until `Run` has returned, it has at most `7 * N + 6` steps, and once `Run` has
returned the result lines are exactly `N`, up to order the per-target lines. -/
theorem returning_deliveries_print_all_lines {env : Env} {t : Template} {ids : List String}
    {sched : List Actor} {s : State}
    (hconf : (runPrologue env).stage = .dispatch t ids)
    (hall : AllReturn env (runPrologue env).viper t ids)
    (hrun : confirmedRun env sched = some s) :
    (∃ rest final, confirmedRun env (sched ++ rest) = some final ∧ final.main = .returned) ∧
    sched.length ≤ 7 * ids.length + 6 ∧
    (s.main = .returned →
      (resultLines s.trace).length = ids.length ∧
      List.Perm (resultLines s.trace) (expectedLines env (runPrologue env).viper t ids)) := by
  obtain ⟨hinv, hv, ht, hids, _⟩ := confirmedRun_spec hconf hrun
  refine ⟨confirmedRun_completion hconf hall hrun, ?_, ?_⟩
  · unfold confirmedRun at hrun
    rw [hconf] at hrun
    have := exec_stepsLeft (control_init _ _ _ _) hrun
    rw [initial_stepsLeft] at this
    omega
  · intro hret
    have hperm := printed_complete hinv.control hinv.logs hinv.printed (Or.inr (Or.inr hret))
    rw [hv, ht, hids] at hperm
    exact ⟨by rw [hperm.length_eq, expectedLines_length hall], hperm⟩

/-- No confirmed run writes more result lines than there are deliveries that return. -/
theorem resultLines_length_le {env : Env} {t : Template} {ids : List String}
    {sched : List Actor} {s : State}
    (hconf : (runPrologue env).stage = .dispatch t ids)
    (hrun : confirmedRun env sched = some s) :
    (resultLines s.trace).length ≤ (expectedLines env (runPrologue env).viper t ids).length := by
  obtain ⟨hinv, hv, ht, hids, _⟩ := confirmedRun_spec hconf hrun
  have hperm : List.Perm (resultLines s.trace) _ := hinv.printed
  rw [hperm.length_eq]
  refine le_trans (printedFrom_length_le _ _ _ _ _) ?_
  rw [hinv.control.ids, hv, ht, hids]
  exact expectedFrom_take_length_le _ _ _ _ _ _

/-- C1 (the code at the failing input): targets `c1`, `c2`, confirmed; no connection can be
made for `c1`. `sendServiceLog` reports the failure, goes on to post and to close over the
nil connection, and panics. Under the schedule `schedPanicLast` the process ends with the
one line of `c2` written, and no schedule goes on from there; under the schedule
`schedPanicReturn` `Run` returns with that one line written; under no schedule are there
two result lines. -/
theorem panic_loses_result_lines :
    (runPrologue envNilConnection).stage = .dispatch ⟨"\x7b\x7d"⟩ ["c1", "c2"] ∧
    sendServiceLog envNilConnection 0 "https://api.openshift.com" "tok" "c1" ⟨"\x7b\x7d"⟩ =
      (.panicked,
        [Event.newConnection "https://api.openshift.com" "tok",
         Event.stderr "error creating ocm connection: \"connection refused\"",
         Event.postServiceLog 0 "c1" ⟨"\x7b\x7d"⟩, Event.closeConnection 0]) ∧
    (confirmedRun envNilConnection schedPanicLast).map
        (fun s => (s.crashed, resultLines s.trace)) =
      some (true, ["c2\tfailure\ttimeout\n"]) ∧
    (∀ a rest, confirmedRun envNilConnection (schedPanicLast ++ a :: rest) = none) ∧
    (confirmedRun envNilConnection schedPanicReturn).map
        (fun s => (s.main, resultLines s.trace)) =
      some (.returned, ["c2\tfailure\ttimeout\n"]) ∧
    (∀ sched s, confirmedRun envNilConnection sched = some s →
      (resultLines s.trace).length ≤ 1) := by
  have hconf : (runPrologue envNilConnection).stage = .dispatch ⟨"\x7b\x7d"⟩ ["c1", "c2"] := by
    decide
  refine ⟨hconf, by decide, by decide, ?_, by decide, ?_⟩
  · intro a rest
    have hsome : (confirmedRun envNilConnection schedPanicLast).isSome = true := by decide
    obtain ⟨s, hs⟩ := Option.isSome_iff_exists.1 hsome
    have hcr : (confirmedRun envNilConnection schedPanicLast).map (fun s => s.crashed) =
        some true := by decide
    rw [hs] at hcr
    exact confirmedRun_crashed hs (by simpa using hcr) a rest
  · intro sched s hrun
    have h := resultLines_length_le hconf hrun
    have hexp : (expectedLines envNilConnection (runPrologue envNilConnection).viper
        ⟨"\x7b\x7d"⟩ ["c1", "c2"]).length = 1 := by decide
    omega

/-- C4: when the configuration check passes, the input is read and decoded, and the
confirmation form ends without error with the operator declining, `Run` returns after the
effects listed here and no others: the rendered notice on standard output, the form, and
`Service log canceled` on standard error. No goroutine is launched under any schedule, no
call to OCM is made, and no result line is written. -/
theorem declined_run_delivers_nothing (env : Env) (input : String) (t : Template)
    (hcheck : env.checkRequiredArgsExist (resolveClusterIds env.viper) requiredKeys = none)
    (hin : env.readAllStdin = .ok input) (hjson : env.unmarshal input = .ok t)
    (hform : env.runForm (confirmTitle (resolveClusterIds env.viper).clusterIds) =
      (none, false)) :
    (runPrologue env).stage = .returned ∧
    (runPrologue env).events =
      [Println (env.renderMarkdown t),
       Event.confirmForm (confirmTitle (resolveClusterIds env.viper).clusterIds),
       Event.stderr "Service log canceled"] ∧
    (runPrologue env).events.filter Event.isOcmCall = [] ∧
    resultLines ((runPrologue env).events.map (fun e => (Actor.main, e))) = [] ∧
    ∀ sched, confirmedRun env sched = none := by
  have hc : env.checkRequiredArgsExist (resolveClusterIds env.viper)
      ["ocm_url", "ocm_token", "cluster_ids"] = none := hcheck
  have hp : runPrologue env =
      ⟨resolveClusterIds env.viper,
        [Println (env.renderMarkdown t),
         Event.confirmForm (confirmTitle (resolveClusterIds env.viper).clusterIds),
         Event.stderr "Service log canceled"], .returned⟩ := by
    simp only [runPrologue, runFrom, hc, hin, hjson, hform]
  refine ⟨by rw [hp], by rw [hp], ?_, resultLines_tagged_main _, ?_⟩
  · rw [hp]
    simp [Event.isOcmCall, Println]
  · intro sched
    simp only [confirmedRun, hp]

/-- Witness of C4: the single target `c1` and an operator who declines. -/
theorem declined_run_delivers_nothing_witness :
    runPrologue envDeclined =
      ⟨envDeclined.viper,
        [Event.stdout "\x7b\x7d\n", Event.confirmForm "Send this service log to 1 cluster(s)?",
         Event.stderr "Service log canceled"], .returned⟩ ∧
    confirmedRun envDeclined schedOne = none := by
  have h := declined_run_delivers_nothing envDeclined "\x7b\x7d" ⟨"\x7b\x7d"⟩ (by decide) rfl rfl
    (by decide)
  exact ⟨by decide, h.2.2.2.2 schedOne⟩

/-- C5 (the code at the failing input): the delivery to `c2` is answered alike in `envTwo`
and in `envNilConnection`, which differ in the delivery to `c1` only. In `envTwo` the run
returns and the goroutine of `c2` has delivered once and written its line. In
`envNilConnection`, under `schedPanicFirst`, the panic of the delivery to `c1` has ended
the process before the goroutine of `c2` has moved: no delivery to `c2`, no line of `c2`,
and no schedule goes on from there. -/
theorem panic_is_not_isolated :
    sendServiceLog envNilConnection 1 "https://api.openshift.com" "tok" "c2" ⟨"\x7b\x7d"⟩ =
      sendServiceLog envTwo 1 "https://api.openshift.com" "tok" "c2" ⟨"\x7b\x7d"⟩ ∧
    (confirmedRun envTwo schedTwo).map (fun s => (s.main, eventsOf (.task 1) s.trace)) =
      some (.returned,
        [Event.newConnection "https://api.openshift.com" "tok",
         Event.postServiceLog 2 "c2" ⟨"\x7b\x7d"⟩, Event.closeConnection 2,
         Event.stdout "c2\tfailure\ttimeout\n"]) ∧
    (confirmedRun envNilConnection schedPanicFirst).map
        (fun s => (s.crashed, s.tasks.map (fun tk => tk.cId), eventsOf (.task 1) s.trace,
          resultLines s.trace)) =
      some (true, ["c1", "c2"], [], []) ∧
    (∀ a rest, confirmedRun envNilConnection (schedPanicFirst ++ a :: rest) = none) := by
  refine ⟨by decide, by decide, by decide, ?_⟩
  intro a rest
  have hsome : (confirmedRun envNilConnection schedPanicFirst).isSome = true := by decide
  obtain ⟨s, hs⟩ := Option.isSome_iff_exists.1 hsome
  have hcr : (confirmedRun envNilConnection schedPanicFirst).map (fun s => s.crashed) =
      some true := by decide
  rw [hs] at hcr
  exact confirmedRun_crashed hs (by simpa using hcr) a rest

/-- C6 (the code at the failing input): with a connection that cannot be made,
`sendServiceLog` reports the failure on standard error, then still posts over what
`NewConnectionWithTemporaryToken` handed back and closes it. In every environment the post
is made, whether or not the connection could be made, and the invocation returns the
error of that post when post and close return, and panics when one of them panics. Where
the post over what was handed back returns no error (`envNoConnection`), the invocation
returns no error and the run prints `c1`, a tab, `success`; where post and close over the
nil connection panic (`envNilConnection`), the goroutine of `c1` ends the process with
status 2 and no line of `c1` is written. -/
theorem connection_failure_still_posts :
    (envNoConnection.newConnectionWithTemporaryToken 0 "https://api.openshift.com" "tok").2 =
      some "connection refused" ∧
    (∀ (env : Env) (call : Nat) (url token clusterId : String) (t : Template),
      Event.postServiceLog (env.newConnectionWithTemporaryToken call url token).1 clusterId t ∈
        (sendServiceLog env call url token clusterId t).2 ∧
      (sendServiceLog env call url token clusterId t).1 =
        sendResult
          (env.postServiceLog call (env.newConnectionWithTemporaryToken call url token).1
            clusterId t)
          (env.closeConnection call (env.newConnectionWithTemporaryToken call url token).1)) ∧
    sendServiceLog envNoConnection 0 "https://api.openshift.com" "tok" "c1" ⟨"\x7b\x7d"⟩ =
      (.returned none,
        [Event.newConnection "https://api.openshift.com" "tok",
         Event.stderr "error creating ocm connection: \"connection refused\"",
         Event.postServiceLog 0 "c1" ⟨"\x7b\x7d"⟩, Event.closeConnection 0]) ∧
    (confirmedRun envNoConnection schedOne).map (fun s => (s.main, resultLines s.trace)) =
      some (.returned, ["c1\tsuccess\n"]) ∧
    (envNilConnection.newConnectionWithTemporaryToken 0 "https://api.openshift.com" "tok") =
      (0, some "connection refused") ∧
    (confirmedRun envNilConnection schedPanicFirst).map
        (fun s => (s.crashed, eventsOf (.task 0) s.trace)) =
      some (true,
        [Event.newConnection "https://api.openshift.com" "tok",
         Event.stderr "error creating ocm connection: \"connection refused\"",
         Event.postServiceLog 0 "c1" ⟨"\x7b\x7d"⟩, Event.closeConnection 0,
         Event.exit 2]) := by
  refine ⟨by decide, ?_, by decide, by decide, by decide, by decide⟩
  intro env call url token clusterId t
  exact ⟨by simp [sendServiceLog], rfl⟩

/-- C8: when the configuration check returns an error, or standard input cannot be read,
or the input does not decode into the template, the sequential part of `Run` ends in
`os.Exit(1)` after the one diagnostic of `cobra.CheckErr`: the form is not run, nothing
is written to standard output, no call to OCM is made, and no goroutine is launched under
any schedule. -/
theorem fatal_errors_abort_before_delivery (env : Env)
    (hfatal : (env.checkRequiredArgsExist (resolveClusterIds env.viper) requiredKeys).isSome
        = true ∨
      (∃ e, env.readAllStdin = .error e) ∨
      (∃ input e, env.readAllStdin = .ok input ∧ env.unmarshal input = .error e)) :
    (runPrologue env).stage = .exited 1 ∧
    (∃ e, (runPrologue env).events = [Event.stderr ("Error: " ++ e ++ "\n"), Event.exit 1]) ∧
    (∀ title, Event.confirmForm title ∉ (runPrologue env).events) ∧
    (runPrologue env).events.filterMap Event.stdoutText = [] ∧
    (runPrologue env).events.filter Event.isOcmCall = [] ∧
    ∀ sched, confirmedRun env sched = none := by
  have key : ∃ e, runPrologue env = ⟨resolveClusterIds env.viper, checkErr e, .exited 1⟩ := by
    cases hc : env.checkRequiredArgsExist (resolveClusterIds env.viper)
        ["ocm_url", "ocm_token", "cluster_ids"] with
    | some e => exact ⟨e, by simp only [runPrologue, runFrom, hc]⟩
    | none =>
      have hc' : env.checkRequiredArgsExist (resolveClusterIds env.viper) requiredKeys
          = none := hc
      rcases hfatal with h | ⟨e, he⟩ | ⟨input, e, hin, he⟩
      · simp [hc'] at h
      · exact ⟨e, by simp only [runPrologue, runFrom, hc, he]⟩
      · exact ⟨e, by simp only [runPrologue, runFrom, hc, hin, he]⟩
  obtain ⟨e, he⟩ := key
  refine ⟨by rw [he], ⟨e, by rw [he]; rfl⟩, ?_, ?_, ?_, ?_⟩
  · intro title
    rw [he]
    simp [checkErr]
  · rw [he]
    simp [checkErr, Event.stdoutText]
  · rw [he]
    simp [checkErr, Event.isOcmCall]
  · intro sched
    simp only [confirmedRun, he]

/-- Witness of C8: a failing configuration check, an unreadable input, and an input that is
not JSON. -/
theorem fatal_errors_abort_before_delivery_witness :
    (runPrologue envMissingToken).stage = .exited 1 ∧
    (runPrologue envNoInput).stage = .exited 1 ∧
    (runPrologue envBadJson).stage = .exited 1 ∧
    (runPrologue envBadJson).events =
      [Event.stderr "Error: invalid character\n", Event.exit 1] ∧
    confirmedRun envBadJson schedTwo = none :=
  ⟨(fatal_errors_abort_before_delivery envMissingToken (Or.inl (by decide))).1,
   (fatal_errors_abort_before_delivery envNoInput (Or.inr (Or.inl ⟨_, rfl⟩))).1,
   (fatal_errors_abort_before_delivery envBadJson
      (Or.inr (Or.inr ⟨"not json", "invalid character", rfl, rfl⟩))).1,
   by decide,
   (fatal_errors_abort_before_delivery envBadJson
      (Or.inr (Or.inr ⟨"not json", "invalid character", rfl, rfl⟩))).2.2.2.2.2 schedTwo⟩

/-- C9, as the code has it: an invocation whose connection call fails establishes no
connection, and goes on to post and to close over what the call handed back. The
invocation for `c1` in `envNilConnection` does not meet the contract the specification
states: no connection is established, and the invocation panics instead of returning. -/
theorem sendServiceLog_contract_fails_without_connection :
    (envNilConnection.newConnectionWithTemporaryToken 0 "https://api.openshift.com" "tok").2 =
      some "connection refused" ∧
    (sendServiceLog envNilConnection 0 "https://api.openshift.com" "tok" "c1"
      ⟨"\x7b\x7d"⟩).1 = .panicked ∧
    ¬ claimedSendContract envNilConnection 0 "https://api.openshift.com" "tok" "c1"
      ⟨"\x7b\x7d"⟩ := by
  refine ⟨by decide, by decide, ?_⟩
  intro h
  have h1 := h.1
  revert h1
  decide

/-- C9, amended: every invocation of `sendServiceLog(url, token, clusterId, t)` whose
connection call returns no error has, as its effects, in this order and with nothing
else: the one `NewConnectionWithTemporaryToken(url, token)`, one
`PostServiceLog(clusterId, t)` over the connection established, with the target and the
template as passed in, and one `Close` of that connection, which is its last effect. The
statements executed one by one in a goroutine give the same. When the post and the close
return, the invocation returns exactly what `PostServiceLog` returned, and the contract
the specification states holds; it panics exactly when one of the two panics. -/
theorem sendServiceLog_one_connection_one_post (env : Env) (call : Nat)
    (url token clusterId : String) (t : Template)
    (hconn : (env.newConnectionWithTemporaryToken call url token).2 = none) :
    (sendServiceLog env call url token clusterId t).2 =
      [Event.newConnection url token,
       Event.postServiceLog (env.newConnectionWithTemporaryToken call url token).1 clusterId t,
       Event.closeConnection (env.newConnectionWithTemporaryToken call url token).1] ∧
    (sendServiceLog env call url token clusterId t).2.filter Event.isOcmCall =
      [Event.newConnection url token,
       Event.postServiceLog (env.newConnectionWithTemporaryToken call url token).1 clusterId t,
       Event.closeConnection (env.newConnectionWithTemporaryToken call url token).1] ∧
    (sendServiceLog env call url token clusterId t).2.getLast? =
      some (Event.closeConnection (env.newConnectionWithTemporaryToken call url token).1) ∧
    sendSteps env call url token clusterId t 4 .entry =
      (.ended (sendServiceLog env call url token clusterId t).1,
        (sendServiceLog env call url token clusterId t).2) ∧
    (sendServiceLog env call url token clusterId t).1 =
      sendResult
        (env.postServiceLog call (env.newConnectionWithTemporaryToken call url token).1
          clusterId t)
        (env.closeConnection call (env.newConnectionWithTemporaryToken call url token).1) ∧
    (∀ err r,
      env.postServiceLog call (env.newConnectionWithTemporaryToken call url token).1
        clusterId t = .returned err →
      env.closeConnection call (env.newConnectionWithTemporaryToken call url token).1 =
        .returned r →
      (sendServiceLog env call url token clusterId t).1 = .returned err ∧
      claimedSendContract env call url token clusterId t) := by
  have hlog : (sendServiceLog env call url token clusterId t).2 =
      [Event.newConnection url token,
       Event.postServiceLog (env.newConnectionWithTemporaryToken call url token).1 clusterId t,
       Event.closeConnection (env.newConnectionWithTemporaryToken call url token).1] := by
    simp [sendServiceLog, connReport, hconn]
  have hfil : (sendServiceLog env call url token clusterId t).2.filter Event.isOcmCall =
      [Event.newConnection url token,
       Event.postServiceLog (env.newConnectionWithTemporaryToken call url token).1 clusterId t,
       Event.closeConnection (env.newConnectionWithTemporaryToken call url token).1] := by
    rw [hlog]
    simp [Event.isOcmCall, List.filter_cons]
  refine ⟨hlog, hfil, by rw [hlog]; rfl, ?_, rfl, ?_⟩
  · simp [sendSteps, sendStep, sendServiceLog, hconn, connReport]
  · intro err r hpost hclose
    have hres : (sendServiceLog env call url token clusterId t).1 = .returned err := by
      show sendResult _ _ = _
      rw [hpost, hclose]
      rfl
    exact ⟨hres, hconn, hfil, err, hpost, hres⟩

/-- Witness of C9: the delivery to `c1` in `envTwo`, whose connection is made. -/
theorem sendServiceLog_one_connection_one_post_witness :
    (envTwo.newConnectionWithTemporaryToken 0 "https://api.openshift.com" "tok").2 = none ∧
    sendServiceLog envTwo 0 "https://api.openshift.com" "tok" "c1" ⟨"\x7b\x7d"⟩ =
      (.returned none,
        [Event.newConnection "https://api.openshift.com" "tok",
         Event.postServiceLog 1 "c1" ⟨"\x7b\x7d"⟩, Event.closeConnection 1]) ∧
    claimedSendContract envTwo 0 "https://api.openshift.com" "tok" "c1" ⟨"\x7b\x7d"⟩ := by
  have h := sendServiceLog_one_connection_one_post envTwo 0 "https://api.openshift.com" "tok"
    "c1" ⟨"\x7b\x7d"⟩ (by decide)
  have h6 := h.2.2.2.2.2 none none (by decide) (by decide)
  have h1 := h.1
  refine ⟨by decide, ?_, h6.2⟩
  exact Prod.ext (by rw [h6.1]) (by rw [h1]; decide)

theorem resolveClusterIds_eq (v : Viper) :
    resolveClusterIds v =
      { v with clusterIdsIsSet := true, clusterIds := claimedTargetList v } := by
  cases v with
  | mk isSet ids cid url tok =>
    cases isSet <;> simp [resolveClusterIds, claimedTargetList, Viper.setClusterIds]

theorem runFrom_form_title (env : Env) (v : Viper) (title : String)
    (h : Event.confirmForm title ∈ (runFrom env v).events) :
    title = confirmTitle v.clusterIds := by
  unfold runFrom at h
  split at h
  · simp [checkErr] at h
  · split at h
    · simp [checkErr] at h
    · split at h
      · simp [checkErr] at h
      · dsimp only at h
        split at h <;> simpa [Println] using h

/-- C10: lines 34-36 leave in the settings store the target list the specification states:
the list of `cluster_ids` when that key is set (the store is then unchanged, whatever
`cluster_id` holds), else the one-element list holding the string value of `cluster_id`,
also when that value is empty. It is this list that the configuration check finds in the
store, whose length the confirmation shows, and whose entries, one goroutine each, are
dispatched. -/
theorem target_list_from_settings (env : Env) :
    (resolveClusterIds env.viper).clusterIds = claimedTargetList env.viper ∧
    (env.viper.clusterIdsIsSet = false →
      claimedTargetList env.viper = [env.viper.clusterId] ∧
      (claimedTargetList env.viper).length = 1 ∧
      confirmTitle (claimedTargetList env.viper) = "Send this service log to 1 cluster(s)?") ∧
    (env.viper.clusterIdsIsSet = true →
      resolveClusterIds env.viper = env.viper ∧
      ∀ x, (resolveClusterIds { env.viper with clusterId := x }).clusterIds =
        env.viper.clusterIds) ∧
    runPrologue env =
      runFrom env
        { env.viper with clusterIdsIsSet := true, clusterIds := claimedTargetList env.viper } ∧
    (∀ e, env.checkRequiredArgsExist
        { env.viper with clusterIdsIsSet := true, clusterIds := claimedTargetList env.viper }
        requiredKeys = some e →
      (runPrologue env).events = checkErr e ∧ (runPrologue env).stage = .exited 1) ∧
    (∀ title, Event.confirmForm title ∈ (runPrologue env).events →
      title = confirmTitle (claimedTargetList env.viper)) ∧
    (∀ t ids, (runPrologue env).stage = .dispatch t ids → ids = claimedTargetList env.viper) ∧
    (∀ t ids sched s, (runPrologue env).stage = .dispatch t ids →
      confirmedRun env sched = some s →
      s.clusterIds = claimedTargetList env.viper ∧
      (s.main = .returned →
        s.tasks.map (fun tk => tk.cId) = claimedTargetList env.viper)) := by
  have hres := resolveClusterIds_eq env.viper
  have hpro : runPrologue env =
      runFrom env
        { env.viper with clusterIdsIsSet := true, clusterIds := claimedTargetList env.viper } := by
    simp only [runPrologue, hres]
  have hdis : ∀ t ids, (runPrologue env).stage = .dispatch t ids →
      ids = claimedTargetList env.viper := by
    intro t ids h
    rw [hpro] at h
    exact (runFrom_dispatch h).1
  refine ⟨by rw [hres], ?_, ?_, hpro, ?_, ?_, hdis, ?_⟩
  · intro h
    have hc : claimedTargetList env.viper = [env.viper.clusterId] := by
      simp [claimedTargetList, h]
    refine ⟨hc, by rw [hc]; rfl, ?_⟩
    rw [hc]
    simp only [confirmTitle, List.length_singleton]
    decide
  · intro h
    refine ⟨by simp [resolveClusterIds, h], ?_⟩
    intro x
    simp [resolveClusterIds, h]
  · intro e he
    have hc : env.checkRequiredArgsExist
        { env.viper with clusterIdsIsSet := true, clusterIds := claimedTargetList env.viper }
        ["ocm_url", "ocm_token", "cluster_ids"] = some e := he
    rw [hpro]
    simp [runFrom, hc]
  · intro title h
    rw [hpro] at h
    exact runFrom_form_title env _ title h
  · intro t ids sched s hconf hrun
    obtain ⟨hinv, _, _, hids, _⟩ := confirmedRun_spec hconf hrun
    have hid := hdis t ids hconf
    refine ⟨by rw [hids, hid], ?_⟩
    intro hret
    have h1 := hinv.control.ids
    simp only [hret, MainPc.launched, List.take_length] at h1
    rw [h1, hids, hid]

/-- Witness of C10: with neither `cluster_ids` nor `cluster_id` set, the run asks about one
cluster and dispatches the one target that is the empty string. -/
theorem target_list_from_settings_witness :
    envNoTarget.viper.clusterIdsIsSet = false ∧ envNoTarget.viper.clusterId = "" ∧
    (runPrologue envNoTarget).stage = .dispatch ⟨"\x7b\x7d"⟩ [""] ∧
    Event.confirmForm "Send this service log to 1 cluster(s)?" ∈
      (runPrologue envNoTarget).events ∧
    ∃ s, confirmedRun envNoTarget schedOne = some s ∧ s.main = .returned ∧
      s.clusterIds = [""] ∧ s.tasks.map (fun tk => tk.cId) = [""] ∧
      (runPrologue envNoTarget).events.filterMap Event.stdoutText = ["\x7b\x7d\n"] ∧
      resultLines s.trace = ["\tsuccess\n"] := by
  have hsome : (confirmedRun envNoTarget schedOne).isSome = true := by decide
  obtain ⟨s, hs⟩ := Option.isSome_iff_exists.1 hsome
  have hmain : (confirmedRun envNoTarget schedOne).map (fun s => s.main) =
      some .returned := by decide
  have hout : (confirmedRun envNoTarget schedOne).map (fun s => resultLines s.trace) =
      some ["\tsuccess\n"] := by decide
  rw [hs] at hmain hout
  have hret : s.main = .returned := by simpa using hmain
  have h := (target_list_from_settings envNoTarget).2.2.2.2.2.2.2 ⟨"\x7b\x7d"⟩ [""] schedOne s
    (by decide) hs
  have hc : claimedTargetList envNoTarget.viper = [""] := by decide
  rw [hc] at h
  exact ⟨by decide, by decide, by decide, by decide, s, hs, hret, h.1, h.2 hret,
    by decide, by simpa using hout⟩

end Servicelogger
